import Mathlib

/-!
Shallow embedding of `src/ncps/torch/cfc_cell.py`: the `CfCCell` recurrent
cell (a closed-form continuous-time cell) with its four modes, the optional
backbone, the sparsity mask and the neuromodulation network.

Modelling conventions:
* A batched tensor of shape `(batch, n)` is a `List (List ℚ)` of `batch`
  rows; machine floats are modelled as rationals.
* The transcendental activation functions (`exp`, `tanh`, `sigmoid`, `silu`,
  `gelu`) are primitives of the external tensor library; they are passed in
  as an explicit record of function parameters (`MathPrims`).  `relu` is
  exactly `max 0 x` and is modelled concretely.
* Randomness (PyTorch's global generator, used by `torch.rand`, by the
  default `nn.Linear` initialisation, by the `xavier_uniform_` pass and by
  `nn.Dropout`) is modelled as an explicit stream of rationals threaded
  through the computation; each random draw consumes the next stream value
  (the stream stands for the sampler's output sequence).
* Exceptions (`ValueError`, `AssertionError`, `TypeError`, `IndexError`,
  `AttributeError`) are modelled as `Except String`.
-/

set_option autoImplicit false
set_option linter.unusedVariables false

abbrev Vec := List ℚ
abbrev Mat := List (List ℚ)

/-- The random stream: the sequence of values the library's random
generator produces. -/
abbrev Rng := ℕ → ℚ

/-- Skip the first `n` values of the stream. -/
def rngDrop (n : ℕ) (g : Rng) : Rng := fun k => g (k + n)

/-- Draw `n` fresh random values from the stream. -/
def drawVec (n : ℕ) (g : Rng) : Vec × Rng := ((List.range n).map g, rngDrop n g)

/-- Draw an `r × c` matrix of fresh random values, row-major. -/
def drawMat : ℕ → ℕ → Rng → Mat × Rng
  | 0, _, g => ([], g)
  | r + 1, cN, g =>
    let row := drawVec cN g
    let rest := drawMat r cN row.2
    (row.1 :: rest.1, rest.2)

/-- The external tensor library's transcendental activation primitives
(`torch.exp`, `nn.Tanh`, `nn.Sigmoid`, `nn.SiLU`, `nn.GELU`). -/
structure MathPrims where
  exp : ℚ → ℚ
  tanh : ℚ → ℚ
  sigmoid : ℚ → ℚ
  silu : ℚ → ℚ
  gelu : ℚ → ℚ

/-- `torch.relu` / `nn.ReLU`: exactly `max 0 x`. -/
def reluQ (x : ℚ) : ℚ := max 0 x

/-- Elementwise four-ary zip (truncating to the shortest list). -/
def zipWith4 (f : ℚ → ℚ → ℚ → ℚ → ℚ) : Vec → Vec → Vec → Vec → Vec
  | a :: as, b :: bs, c :: cs, d :: ds => f a b c d :: zipWith4 f as bs cs ds
  | _, _, _, _ => []

/-- Dot product (`Σ_k a_k * b_k`). -/
def dotQ (a b : Vec) : ℚ := (List.zipWith (· * ·) a b).sum

/-- `torch.nn.functional.linear`: `y_ij = b_j + Σ_k W_jk x_ik` for weight
`W : (out, in)` and bias `b : (out)`. -/
def linearW (w : Mat) (b : Vec) (x : Mat) : Mat :=
  x.map fun r => List.zipWith (fun wr bj => bj + dotQ wr r) w b

/-- `torch.cat([a, b], 1)`: row-wise concatenation. -/
def matCat (a b : Mat) : Mat := List.zipWith (· ++ ·) a b

/-- Elementwise map over a batched tensor. -/
def matMap (f : ℚ → ℚ) (m : Mat) : Mat := m.map (List.map f)

/-- Elementwise addition. -/
def matAdd (a b : Mat) : Mat := List.zipWith (List.zipWith (· + ·)) a b

/-- Elementwise (Hadamard) product. -/
def matHad (a b : Mat) : Mat := List.zipWith (List.zipWith (· * ·)) a b

/-- Multiplication by a scalar on the right (`t_a * ts`). -/
def matScale (ts : ℚ) (m : Mat) : Mat := matMap (fun v => v * ts) m

/-- `1.0 - t` elementwise. -/
def matOneMinus (m : Mat) : Mat := matMap (fun v => 1 - v) m

/-- An affine (`nn.Linear`) layer's parameters: `weight : (out, in)`,
`bias : (out)`. -/
structure LinearP where
  weight : Mat
  bias : Vec

/-- `nn.Linear(inF, outF)`: parameters are freshly drawn from the random
stream (modelling the default random initialisation; the weights are later
overwritten by the Xavier pass). -/
def mkLinear (inF outF : ℕ) (g : Rng) : LinearP × Rng :=
  let w := drawMat outF inF g
  let b := drawVec outF w.2
  ({ weight := w.1, bias := b.1 }, b.2)

/-- One element of the backbone `nn.Sequential`. -/
inductive Layer where
  | linear (l : LinearP)
  | act (f : ℚ → ℚ)
  | dropout (p : ℚ)

/-- `nn.Dropout(p)` on one row, in training mode: each element is zeroed
when its fresh draw is below `p`, otherwise scaled by `1 / (1 - p)`. -/
def dropoutRow (p : ℚ) : Vec → Rng → Vec × Rng
  | [], g => ([], g)
  | v :: vs, g =>
    let u := g 0
    let rest := dropoutRow p vs (rngDrop 1 g)
    ((if u < p then 0 else v / (1 - p)) :: rest.1, rest.2)

/-- `nn.Dropout(p)` on a batched tensor, row-major draws. -/
def dropoutMat (p : ℚ) : Mat → Rng → Mat × Rng
  | [], g => ([], g)
  | r :: rs, g =>
    let row := dropoutRow p r g
    let rest := dropoutMat p rs row.2
    (row.1 :: rest.1, rest.2)

/-- Evaluate one backbone layer (dropout is active only in training mode). -/
def runLayer (training : Bool) (l : Layer) (x : Mat) (g : Rng) : Mat × Rng :=
  match l with
  | .linear lw => (linearW lw.weight lw.bias x, g)
  | .act f => (matMap f x, g)
  | .dropout p => if training then dropoutMat p x g else (x, g)

/-- Evaluate the backbone `nn.Sequential`. -/
def runBackbone (training : Bool) : List Layer → Mat → Rng → Mat × Rng
  | [], x, g => (x, g)
  | l :: ls, x, g =>
    let r := runLayer training l x g
    runBackbone training ls r.1 r.2

/-- Evaluate the neuromodulation `nn.Sequential` built by the constructor:
alternating `nn.Linear` and activation layers. -/
def seqRun (act : ℚ → ℚ) : List LinearP → Mat → Mat
  | [], x => x
  | l :: ls, x => seqRun act ls (matMap act (linearW l.weight l.bias x))

/-- The stored neuromodulation network: either the `nn.Sequential` built by
the constructor, or an arbitrary callable installed by
`change_neuromodulation_network` (which may itself raise). -/
inductive NeuromodNet where
  | seq (layers : List LinearP) (act : ℚ → ℚ)
  | custom (f : Mat → Except String Mat)

/-- Call the stored neuromodulation network. -/
def NeuromodNet.run : NeuromodNet → Mat → Except String Mat
  | .seq ls a, x => .ok (seqRun a ls x)
  | .custom f, x => f x

/-- The `tau_system` diagnostic buffer: created as `torch.ones((h,))`
(a 1-D vector of ones, represented by `TauBuf.init h`), overwritten by
`forward` in the `pure`/`neuromodulated` modes with a `(batch, h)` value. -/
inductive TauBuf where
  | init (n : ℕ)
  | recorded (m : Mat)

/-- The argument of `forward`: a plain tensor, or (for the
`neuromodulated` mode) a `(policy_input, neuromod_input)` pair. -/
inductive CfCInput where
  | single (x : Mat)
  | tuple (policy neuromod : Mat)

/-- The `CfCCell` module state.  Attributes that Python creates only in
some modes are `Option`s (`none` models the absent attribute; reading an
absent attribute raises `AttributeError`). -/
structure CfCCell where
  input_size : ℕ
  hidden_size : ℕ
  sparsity_mask : Option Mat
  mode : String
  neuromod_network_dims : Option (List ℕ)
  backbone : List Layer
  backbone_layers : ℕ
  ff1 : LinearP
  w_tau : Option Vec
  A : Option Vec
  neuromod : Option NeuromodNet
  ff2 : Option LinearP
  time_a : Option LinearP
  time_b : Option LinearP
  tau_system : TauBuf
  training : Bool

/-- `self.ff1.weight * self.sparsity_mask` when a mask is stored, else the
raw weight. -/
def maskedW (m? : Option Mat) (w : Mat) : Mat :=
  match m? with
  | some m => matHad w m
  | none => w

/-- The effective `ff1` weight (masked or raw). -/
def ff1W (c : CfCCell) : Mat := maskedW c.sparsity_mask c.ff1.weight

/-- The concatenate-then-backbone prefix of `forward`: `x = cat(inp, hx)`
followed by `self.backbone(x)` when `backbone_layers > 0`. -/
def bboneStep (c : CfCCell) (x₀ : Mat) (g : Rng) : Mat × Rng :=
  if 0 < c.backbone_layers then runBackbone c.training c.backbone x₀ g else (x₀, g)

/-- The broadcast update `-A * exp(-ts * (|w_tau| + |decaySrc|)) * mag + A`
with `A, w_tau : (1, h)` broadcast across the batch rows of the
`(batch, h)` tensors `decaySrc` and `mag`. -/
def decayUpdate (P : MathPrims) (A wt : Vec) (ts : ℚ) (decaySrc mag : Mat) : Mat :=
  List.zipWith
    (fun srow frow =>
      zipWith4 (fun a w s f => -a * P.exp (-ts * (|w| + |s|)) * f + a) A wt srow frow)
    decaySrc mag

/-- The diagnostic value `1.0 / (|w_tau| + |src|)` with `w_tau : (1, h)`
broadcast across the rows of `src`. -/
def tauUpdate (wt : Vec) (src : Mat) : Mat :=
  src.map fun row => List.zipWith (fun w s => 1 / (|w| + |s|)) wt row

/-- The body of `CfCCell.forward`, with the mutation of `tau_system`
made explicit: it returns the new hidden state, the value written to the
diagnostic buffer (when the branch writes one) and the advanced random
stream. -/
def forwardCore (P : MathPrims) (c : CfCCell) (input : CfCInput) (hx : Mat) (ts : ℚ)
    (g : Rng) : Except String (Mat × Option Mat × Rng) :=
  match
    (if c.mode = "neuromodulated" then
      match input with
      | .tuple p nin => Except.ok (matCat p hx, some nin)
      | .single _ => .error "Input must be a tuple (policy_input, neuromod_input)"
    else
      match input with
      | .single t => Except.ok (matCat t hx, none)
      | .tuple _ _ => .error "TypeError: expected Tensor as element 0 in argument 0, but got tuple"
      : Except String (Mat × Option Mat)) with
  | .error e => .error e
  | .ok (x₀, nmInput) =>
    let xg := bboneStep c x₀ g
    let ff1v := linearW (ff1W c) c.ff1.bias xg.1
    if c.mode = "pure" then
      match c.w_tau, c.A with
      | some wt, some A =>
        .ok (decayUpdate P A wt ts ff1v ff1v, some (tauUpdate wt ff1v), xg.2)
      | _, _ => .error "AttributeError: w_tau"
    else if c.mode = "neuromodulated" then
      match c.w_tau, c.A, c.neuromod, nmInput with
      | some wt, some A, some nm, some nin =>
        match nm.run nin with
        | .error e => .error e
        | .ok signal =>
          .ok (decayUpdate P A wt ts signal ff1v, some (tauUpdate wt signal), xg.2)
      | _, _, _, _ => .error "AttributeError: neuromod"
    else
      match c.ff2, c.time_a, c.time_b with
      | some f2, some ta, some tb =>
        let ff2v := linearW (maskedW c.sparsity_mask f2.weight) f2.bias xg.1
        let f1t := matMap P.tanh ff1v
        let f2t := matMap P.tanh ff2v
        let tav := linearW ta.weight ta.bias xg.1
        let tbv := linearW tb.weight tb.bias xg.1
        let tInterp := matMap P.sigmoid (matAdd (matScale ts tav) tbv)
        let nh :=
          if c.mode = "no_gate" then matAdd f1t (matHad tInterp f2t)
          else matAdd (matHad f1t (matOneMinus tInterp)) (matHad tInterp f2t)
        .ok (nh, none, xg.2)
      | _, _, _ => .error "AttributeError: ff2"

/-- `CfCCell.forward`: returns `(new_hidden, new_hidden)` and, as the
explicit rendering of the side effect `self.tau_system.data = ...`, the
updated cell together with the advanced random stream. -/
def CfCCell.forward (P : MathPrims) (c : CfCCell) (input : CfCInput) (hx : Mat) (ts : ℚ)
    (g : Rng) : Except String ((Mat × Mat) × CfCCell × Rng) :=
  (forwardCore P c input hx ts g).map fun r =>
    ((r.1, r.1), { c with tau_system := r.2.1.elim c.tau_system TauBuf.recorded }, r.2.2)

/-- Only the new-hidden output of `forward`. -/
def fwdOut (P : MathPrims) (c : CfCCell) (input : CfCInput) (hx : Mat) (ts : ℚ)
    (g : Rng) : Except String Mat :=
  (CfCCell.forward P c input hx ts g).map fun r => r.1.1

/-- Resolution of the `backbone_activation` keyword to an activation
function (`ValueError` on an unknown keyword).  `lecun_tanh` is the
inline `LeCun` module: `1.7159 * tanh(0.666 * x)`. -/
def resolveAct (P : MathPrims) : String → Except String (ℚ → ℚ)
  | "silu" => .ok P.silu
  | "relu" => .ok reluQ
  | "tanh" => .ok P.tanh
  | "gelu" => .ok P.gelu
  | "lecun_tanh" => .ok fun x => (1.7159 : ℚ) * P.tanh ((0.666 : ℚ) * x)
  | _ => .error "Unknown activation"

/-- The tail of the backbone layer list: `for i in range(1, backbone_layers)`
append a `Linear(units, units)`, the activation, and (when
`backbone_dropout > 0`) a `Dropout`. -/
def mkBackboneTail (act : ℚ → ℚ) (units : ℕ) (p : ℚ) : ℕ → Rng → List Layer × Rng
  | 0, g => ([], g)
  | k + 1, g =>
    let l := mkLinear units units g
    let rest := mkBackboneTail act units p k l.2
    ((Layer.linear l.1 :: Layer.act act ::
        (if 0 < p then [Layer.dropout p] else [])) ++ rest.1, rest.2)

/-- The full backbone: first `Linear(input_size + hidden_size, units)` and
the activation, then the tail blocks. -/
def mkBackbone (act : ℚ → ℚ) (inF units : ℕ) (p : ℚ) (layers : ℕ) (g : Rng) :
    List Layer × Rng :=
  let l0 := mkLinear inF units g
  let rest := mkBackboneTail act units p (layers - 1) l0.2
  (Layer.linear l0.1 :: Layer.act act :: rest.1, rest.2)

/-- The neuromodulation layer stack:
`for i in range(len(dims) - 1): Linear(dims[i], dims[i+1])` (each followed
by the activation, which carries no parameters). -/
def mkNeuromodLayers : List ℕ → Rng → List LinearP × Rng
  | [], g => ([], g)
  | [_], g => ([], g)
  | d₁ :: d₂ :: rest, g =>
    let l := mkLinear d₁ d₂ g
    let ls := mkNeuromodLayers (d₂ :: rest) l.2
    (l.1 :: ls.1, ls.2)

/-- `xavier_uniform_` applied to one 2-D weight: every entry is replaced by
a fresh draw from the random stream (the stream stands for the sampler). -/
def refillW (l : LinearP) (g : Rng) : LinearP × Rng :=
  let d := drawMat l.weight.length (l.weight.headD []).length g
  ({ l with weight := d.1 }, d.2)

/-- `xavier_uniform_` applied to a `(1, h)` parameter (`w_tau` / `A`):
its `h` entries are replaced by fresh draws.  `none` (attribute absent)
draws nothing. -/
def refillOptVec (v : Option Vec) (g : Rng) : Option Vec × Rng :=
  match v with
  | none => (none, g)
  | some vv =>
    let d := drawVec vv.length g
    (some d.1, d.2)

/-- The Xavier pass over the backbone: only the `nn.Linear` weights are
2-D trainable parameters. -/
def refillLayers : List Layer → Rng → List Layer × Rng
  | [], g => ([], g)
  | .linear l :: ls, g =>
    let r := refillW l g
    let rest := refillLayers ls r.2
    (Layer.linear r.1 :: rest.1, rest.2)
  | l :: ls, g =>
    let rest := refillLayers ls g
    (l :: rest.1, rest.2)

/-- The Xavier pass over the neuromodulation `Linear` stack. -/
def refillList : List LinearP → Rng → List LinearP × Rng
  | [], g => ([], g)
  | l :: ls, g =>
    let r := refillW l g
    let rest := refillList ls r.2
    (r.1 :: rest.1, rest.2)

/-- `CfCCell.init_weights`: `xavier_uniform_` on every parameter with
`dim() == 2` and `requires_grad`.  Following PyTorch's `parameters()`
order this refills, in order: the cell's own 2-D trainable parameters
`w_tau` and `A` (shape `(1, h)`; the non-trainable `sparsity_mask` and the
1-D `tau_system` are skipped), then the submodules in registration order:
the backbone `Linear` weights, `ff1.weight`, and finally either the
neuromodulation `Linear` weights or the `ff2`/`time_a`/`time_b` weights.
1-D biases are skipped. -/
def initWeights (c : CfCCell) (g : Rng) : CfCCell × Rng :=
  let s1 := refillOptVec c.w_tau g
  let s2 := refillOptVec c.A s1.2
  let s3 := refillLayers c.backbone s2.2
  let s4 := refillW c.ff1 s3.2
  match c.neuromod with
  | some (.seq ls a) =>
    let s5 := refillList ls s4.2
    ({ c with w_tau := s1.1, A := s2.1, backbone := s3.1, ff1 := s4.1,
              neuromod := some (.seq s5.1 a) }, s5.2)
  | _ =>
    match c.ff2, c.time_a, c.time_b with
    | some f2, some ta, some tb =>
      let s5 := refillW f2 s4.2
      let s6 := refillW ta s5.2
      let s7 := refillW tb s6.2
      ({ c with w_tau := s1.1, A := s2.1, backbone := s3.1, ff1 := s4.1,
                ff2 := some s5.1, time_a := some s6.1, time_b := some s7.1 }, s7.2)
    | _, _, _ =>
      ({ c with w_tau := s1.1, A := s2.1, backbone := s3.1, ff1 := s4.1 }, s4.2)

/-- `CfCCell.__init__`.  Checks and attribute creation in source order:
mode check, sparsity-mask transform (`np.abs(mask.T)`), activation
resolution, backbone build, `cat_shape`, `ff1`, then the mode branch
(`w_tau`/`A` created as zeros/ones and, for `neuromodulated`, the dims
asserts and the neuromodulation stack — or `ff2`/`time_a`/`time_b`),
the `tau_system` ones buffer, and finally `init_weights`. -/
def mkCfCCell (P : MathPrims) (input_size hidden_size : ℕ) (mode : String)
    (backbone_activation : String) (backbone_units backbone_layers : ℕ)
    (backbone_dropout : ℚ) (sparsity_mask : Option Mat)
    (neuromod_network_dims : Option (List ℕ))
    (neuromod_network_activation : ℚ → ℚ) (g : Rng) :
    Except String (CfCCell × Rng) :=
  if mode ∈ ["default", "pure", "no_gate", "neuromodulated"] then
    let smask := sparsity_mask.map fun m => matMap (fun v => |v|) m.transpose
    match resolveAct P backbone_activation with
    | .error e => .error e
    | .ok act =>
      let bb :=
        if 0 < backbone_layers then
          mkBackbone act (input_size + hidden_size) backbone_units backbone_dropout
            backbone_layers g
        else ([], g)
      let cat_shape := if backbone_layers = 0 then hidden_size + input_size
        else backbone_units
      let f1 := mkLinear cat_shape hidden_size bb.2
      if mode = "pure" ∨ mode = "neuromodulated" then
        if mode = "neuromodulated" then
          match neuromod_network_dims with
          | none => .error "Neuromodulation network dimensions must be set"
          | some ds =>
            match ds.getLast? with
            | none => .error "IndexError: list index out of range"
            | some dlast =>
              if dlast = hidden_size then
                let nmls := mkNeuromodLayers ds f1.2
                .ok (initWeights
                  { input_size := input_size, hidden_size := hidden_size,
                    sparsity_mask := smask, mode := mode,
                    neuromod_network_dims := neuromod_network_dims,
                    backbone := bb.1, backbone_layers := backbone_layers,
                    ff1 := f1.1,
                    w_tau := some (List.replicate hidden_size 0),
                    A := some (List.replicate hidden_size 1),
                    neuromod := some (.seq nmls.1 neuromod_network_activation),
                    ff2 := none, time_a := none, time_b := none,
                    tau_system := .init hidden_size, training := true } nmls.2)
              else
                .error "Last layer of neuromodulation network must have the same size as the hidden state"
        else
          .ok (initWeights
            { input_size := input_size, hidden_size := hidden_size,
              sparsity_mask := smask, mode := mode,
              neuromod_network_dims := neuromod_network_dims,
              backbone := bb.1, backbone_layers := backbone_layers,
              ff1 := f1.1,
              w_tau := some (List.replicate hidden_size 0),
              A := some (List.replicate hidden_size 1),
              neuromod := none, ff2 := none, time_a := none, time_b := none,
              tau_system := .init hidden_size, training := true } f1.2)
      else
        let f2 := mkLinear cat_shape hidden_size f1.2
        let ta := mkLinear cat_shape hidden_size f2.2
        let tb := mkLinear cat_shape hidden_size ta.2
        .ok (initWeights
          { input_size := input_size, hidden_size := hidden_size,
            sparsity_mask := smask, mode := mode,
            neuromod_network_dims := neuromod_network_dims,
            backbone := bb.1, backbone_layers := backbone_layers,
            ff1 := f1.1,
            w_tau := none, A := none, neuromod := none,
            ff2 := some f2.1, time_a := some ta.1, time_b := some tb.1,
            tau_system := .init hidden_size, training := true } tb.2)
  else .error "Unknown mode"

/-- `CfCCell.change_neuromodulation_network`: asserts the mode, probes the
candidate with `torch.rand((1, dims[0]))`, and inside a `try` evaluates it
and asserts the output width against `dims[-1]`; any exception there is
turned into the `ValueError` about the input size.  On success the stored
network reference is replaced (no other attribute is touched). -/
def change_neuromodulation_network (c : CfCCell)
    (network : Mat → Except String Mat) (g : Rng) :
    Except String (CfCCell × Rng) :=
  if c.mode = "neuromodulated" then
    match c.neuromod_network_dims with
    | none => .error "TypeError: NoneType object is not subscriptable"
    | some ds =>
      match ds.head?, ds.getLast? with
      | some d0, some dl =>
        let probe := drawMat 1 d0 g
        match network probe.1 with
        | .error _ =>
          .error "New neuromodulation network doesn't have correct input size"
        | .ok out =>
          if (out.headD []).length = dl then
            .ok ({ c with neuromod := some (.custom network) }, probe.2)
          else
            .error "New neuromodulation network doesn't have correct input size"
      | _, _ => .error "IndexError: list index out of range"
  else .error "Neuromodulation network can only be set in neuromodulated mode"

/- ### Generic shape and indexing lemmas for the tensor model -/

theorem zipWith4_length (f : ℚ → ℚ → ℚ → ℚ → ℚ) (a b c d : Vec) :
    (zipWith4 f a b c d).length = min (min (min a.length b.length) c.length) d.length := by
  induction a generalizing b c d with
  | nil => simp [zipWith4]
  | cons x xs ih =>
    cases b with
    | nil => simp [zipWith4]
    | cons y ys =>
      cases c with
      | nil => simp [zipWith4]
      | cons z zs =>
        cases d with
        | nil => simp [zipWith4]
        | cons w ws =>
          simp only [zipWith4, List.length_cons, ih]
          omega

theorem zipWith4_getElem (f : ℚ → ℚ → ℚ → ℚ → ℚ) (as bs cs ds : Vec) (i : ℕ)
    (ha : i < as.length) (hb : i < bs.length) (hc : i < cs.length) (hd : i < ds.length)
    (h : i < (zipWith4 f as bs cs ds).length) :
    (zipWith4 f as bs cs ds)[i] = f as[i] bs[i] cs[i] ds[i] := by
  induction as generalizing bs cs ds i with
  | nil => simp at ha
  | cons x xs ih =>
    cases bs with
    | nil => simp at hb
    | cons y ys =>
      cases cs with
      | nil => simp at hc
      | cons z zs =>
        cases ds with
        | nil => simp at hd
        | cons w ws =>
          cases i with
          | zero => simp [zipWith4]
          | succ n =>
            have hn : n < (zipWith4 f xs ys zs ws).length := by
              simpa [zipWith4] using h
            simpa [zipWith4] using ih ys zs ws n (by simpa using ha) (by simpa using hb)
              (by simpa using hc) (by simpa using hd) hn

theorem linearW_length (w : Mat) (b : Vec) (x : Mat) :
    (linearW w b x).length = x.length := by
  simp [linearW]

theorem linearW_row_length (w : Mat) (b : Vec) (x : Mat) (i : ℕ)
    (h : i < (linearW w b x).length) :
    ((linearW w b x)[i]).length = min w.length b.length := by
  have hx : i < x.length := by simpa [linearW_length] using h
  simp [linearW, List.getElem_map]

theorem linearW_getElem (w : Mat) (b : Vec) (x : Mat) (i j : ℕ)
    (hx : i < x.length) (hw : j < w.length) (hb : j < b.length)
    (hi : i < (linearW w b x).length) (hj : j < ((linearW w b x)[i]).length) :
    ((linearW w b x)[i])[j] = b[j] + dotQ w[j] x[i] := by
  simp [linearW, List.getElem_map, List.getElem_zipWith]

theorem matMap_length (f : ℚ → ℚ) (m : Mat) : (matMap f m).length = m.length := by
  simp [matMap]

theorem matMap_row_length (f : ℚ → ℚ) (m : Mat) (i : ℕ) (hm : i < m.length)
    (h : i < (matMap f m).length) :
    ((matMap f m)[i]).length = (m[i]).length := by
  simp [matMap, List.getElem_map]

theorem matMap_getElem (f : ℚ → ℚ) (m : Mat) (i j : ℕ)
    (hm : i < m.length) (hmj : j < (m[i]).length)
    (hi : i < (matMap f m).length) (hj : j < ((matMap f m)[i]).length) :
    ((matMap f m)[i])[j] = f ((m[i])[j]) := by
  simp [matMap, List.getElem_map]

theorem matCat_length (a b : Mat) : (matCat a b).length = min a.length b.length := by
  simp [matCat]

theorem decayUpdate_length (P : MathPrims) (A wt : Vec) (ts : ℚ) (s m : Mat) :
    (decayUpdate P A wt ts s m).length = min s.length m.length := by
  simp [decayUpdate]

theorem decayUpdate_row_length (P : MathPrims) (A wt : Vec) (ts : ℚ) (s m : Mat) (i : ℕ)
    (hs : i < s.length) (hm : i < m.length)
    (h : i < (decayUpdate P A wt ts s m).length) :
    ((decayUpdate P A wt ts s m)[i]).length =
      min (min (min A.length wt.length) ((s[i]).length)) ((m[i]).length) := by
  simp [decayUpdate, List.getElem_zipWith, zipWith4_length]

theorem decayUpdate_getElem (P : MathPrims) (A wt : Vec) (ts : ℚ) (s m : Mat) (i j : ℕ)
    (hs : i < s.length) (hm : i < m.length)
    (hA : j < A.length) (hw : j < wt.length)
    (hsj : j < (s[i]).length) (hmj : j < (m[i]).length)
    (hi : i < (decayUpdate P A wt ts s m).length)
    (hj : j < ((decayUpdate P A wt ts s m)[i]).length) :
    ((decayUpdate P A wt ts s m)[i])[j] =
      -(A[j]) * P.exp (-ts * (|wt[j]| + |(s[i])[j]|)) * ((m[i])[j]) + A[j] := by
  have := zipWith4_getElem
    (fun a w sv f => -a * P.exp (-ts * (|w| + |sv|)) * f + a) A wt (s[i]) (m[i]) j
    hA hw hsj hmj
  simp only [decayUpdate, List.getElem_zipWith] at hj ⊢
  exact this (by simpa [zipWith4_length] using hj)

theorem tauUpdate_length (wt : Vec) (src : Mat) : (tauUpdate wt src).length = src.length := by
  simp [tauUpdate]

theorem tauUpdate_row_length (wt : Vec) (src : Mat) (i : ℕ)
    (hs : i < src.length) (h : i < (tauUpdate wt src).length) :
    ((tauUpdate wt src)[i]).length = min wt.length ((src[i]).length) := by
  simp [tauUpdate, List.getElem_map]

theorem tauUpdate_getElem (wt : Vec) (src : Mat) (i j : ℕ)
    (hs : i < src.length) (hw : j < wt.length) (hsj : j < (src[i]).length)
    (hi : i < (tauUpdate wt src).length) (hj : j < ((tauUpdate wt src)[i]).length) :
    ((tauUpdate wt src)[i])[j] = 1 / (|wt[j]| + |(src[i])[j]|) := by
  simp [tauUpdate, List.getElem_map, List.getElem_zipWith]

theorem dropoutRow_length (p : ℚ) (v : Vec) (g : Rng) :
    (dropoutRow p v g).1.length = v.length := by
  induction v generalizing g with
  | nil => simp [dropoutRow]
  | cons x xs ih => simp [dropoutRow, ih]

theorem dropoutMat_length (p : ℚ) (x : Mat) (g : Rng) :
    (dropoutMat p x g).1.length = x.length := by
  induction x generalizing g with
  | nil => simp [dropoutMat]
  | cons r rs ih => simp [dropoutMat, ih]

theorem runLayer_length (t : Bool) (l : Layer) (x : Mat) (g : Rng) :
    (runLayer t l x g).1.length = x.length := by
  cases l with
  | linear lw => simp [runLayer, linearW_length]
  | act f => simp [runLayer, matMap_length]
  | dropout p =>
    cases t with
    | false => simp [runLayer]
    | true => simp [runLayer, dropoutMat_length]

theorem runBackbone_length (t : Bool) (ls : List Layer) (x : Mat) (g : Rng) :
    (runBackbone t ls x g).1.length = x.length := by
  induction ls generalizing x g with
  | nil => simp [runBackbone]
  | cons l ls ih => simp [runBackbone, ih, runLayer_length]

theorem bboneStep_length (c : CfCCell) (x : Mat) (g : Rng) :
    (bboneStep c x g).1.length = x.length := by
  unfold bboneStep
  by_cases h : 0 < c.backbone_layers
  · simp [h, runBackbone_length]
  · simp [h]

theorem seqRun_length (a : ℚ → ℚ) (ls : List LinearP) (x : Mat) :
    (seqRun a ls x).length = x.length := by
  induction ls generalizing x with
  | nil => simp [seqRun]
  | cons l ls ih => simp [seqRun, ih, matMap_length, linearW_length]

theorem seqRun_row_length (a : ℚ → ℚ) (ls : List LinearP) (x : Mat) (lst : LinearP)
    (hlast : ls.getLast? = some lst) (i : ℕ) (h : i < (seqRun a ls x).length) :
    ((seqRun a ls x)[i]).length = min lst.weight.length lst.bias.length := by
  induction ls generalizing x with
  | nil => simp at hlast
  | cons l ls ih =>
    cases ls with
    | nil =>
      have hl : l = lst := by simpa using hlast
      subst hl
      have hx : i < x.length := by simpa [seqRun_length] using h
      have h3 : i < (linearW l.weight l.bias x).length := by
        simpa [linearW_length] using hx
      have h2 : i < (matMap a (linearW l.weight l.bias x)).length := by
        simpa [matMap_length, linearW_length] using hx
      simp only [seqRun]
      rw [matMap_row_length a _ i h3 h2, linearW_row_length l.weight l.bias x i h3]
    | cons l2 ls2 =>
      have hlast2 : (l2 :: ls2).getLast? = some lst := by
        rwa [List.getLast?_cons_cons] at hlast
      have h2 : i < (seqRun a (l2 :: ls2) (matMap a (linearW l.weight l.bias x))).length := by
        simpa [seqRun] using h
      have := ih (matMap a (linearW l.weight l.bias x)) hlast2 h2
      simpa [seqRun] using this

/- ### Dropout-free backbones: `forward` consumes no randomness -/

/-- Classifier for dropout layers. -/
def Layer.isDrop : Layer → Bool
  | .dropout _ => true
  | _ => false

/-- A backbone with no dropout layers. -/
def noDropout (ls : List Layer) : Prop := ∀ l ∈ ls, l.isDrop = false

/-- Backbone evaluation ignoring the random stream (used to state that a
dropout-free backbone is deterministic). -/
def pureRun : List Layer → Mat → Mat
  | [], x => x
  | .linear lw :: ls, x => pureRun ls (linearW lw.weight lw.bias x)
  | .act f :: ls, x => pureRun ls (matMap f x)
  | .dropout _ :: ls, x => pureRun ls x

theorem runBackbone_noDropout (t : Bool) (ls : List Layer) (x : Mat) (g : Rng)
    (hnd : noDropout ls) : runBackbone t ls x g = (pureRun ls x, g) := by
  induction ls generalizing x g with
  | nil => simp [runBackbone, pureRun]
  | cons l ls ih =>
    have hl : l.isDrop = false := hnd l (List.mem_cons_self l ls)
    have hls : noDropout ls := fun m hm => hnd m (List.mem_cons_of_mem l hm)
    cases l with
    | linear lw => simp [runBackbone, runLayer, pureRun, ih _ _ hls]
    | act f => simp [runBackbone, runLayer, pureRun, ih _ _ hls]
    | dropout p => simp [Layer.isDrop] at hl

/-- With a dropout-free backbone (or none at all) the concat-backbone
prefix ignores and passes through the random stream. -/
theorem bboneStep_noDropout (c : CfCCell) (x : Mat) (g : Rng)
    (hnd : noDropout c.backbone) :
    bboneStep c x g = ((if 0 < c.backbone_layers then pureRun c.backbone x else x), g) := by
  unfold bboneStep
  by_cases h : 0 < c.backbone_layers
  · simp [h, runBackbone_noDropout _ _ _ _ hnd]
  · simp [h]

/-- `forward` never reads the diagnostic buffer: its computation is
unchanged if `tau_system` is replaced. -/
theorem forwardCore_tau_irrelevant (P : MathPrims) (c : CfCCell) (t : TauBuf)
    (input : CfCInput) (hx : Mat) (ts : ℚ) (g : Rng) :
    forwardCore P { c with tau_system := t } input hx ts g =
      forwardCore P c input hx ts g := by
  cases c
  rfl

/-- With a dropout-free backbone, the hidden-state output and the
diagnostic write of `forward` do not depend on the random stream. -/
theorem forwardCore_noDropout_rng (P : MathPrims) (c : CfCCell) (input : CfCInput)
    (hx : Mat) (ts : ℚ) (g g₂ : Rng) (hnd : noDropout c.backbone) :
    (forwardCore P c input hx ts g).map (fun r => (r.1, r.2.1)) =
      (forwardCore P c input hx ts g₂).map (fun r => (r.1, r.2.1)) := by
  unfold forwardCore
  cases hin :
    (if c.mode = "neuromodulated" then
      match input with
      | .tuple p nin => Except.ok (matCat p hx, some nin)
      | .single _ => .error "Input must be a tuple (policy_input, neuromod_input)"
    else
      match input with
      | .single t => Except.ok (matCat t hx, none)
      | .tuple _ _ => .error "TypeError: expected Tensor as element 0 in argument 0, but got tuple"
      : Except String (Mat × Option Mat)) with
  | error e => rfl
  | ok v =>
    obtain ⟨x₀, nmInput⟩ := v
    simp only [bboneStep_noDropout c x₀ g hnd, bboneStep_noDropout c x₀ g₂ hnd]
    by_cases hp : c.mode = "pure"
    · simp only [hp, if_true, reduceIte]
      cases c.w_tau <;> cases c.A <;> simp [Except.map]
    · by_cases hnm : c.mode = "neuromodulated"
      · simp only [hp, hnm, if_false, if_true, reduceIte]
        cases c.w_tau <;> cases c.A <;> cases hn : c.neuromod <;> cases nmInput <;>
          simp [Except.map]
        rename_i nm nin
        cases nm.run nin <;> simp [Except.map]
      · simp only [hp, hnm, if_false, reduceIte]
        cases c.ff2 <;> cases c.time_a <;> cases c.time_b <;> simp [Except.map]

/- ### The mode-specific update formulas -/

/-- The value `ff1` computed by `forward`: the (masked-or-raw) affine
projection of the backbone output of `cat(inp, hx)`. -/
def ff1Val (c : CfCCell) (x₀ : Mat) (g : Rng) : Mat :=
  linearW (ff1W c) c.ff1.bias (bboneStep c x₀ g).1

theorem forwardCore_pure (P : MathPrims) (c : CfCCell) (wt A : Vec) (inp hx : Mat)
    (ts : ℚ) (g : Rng)
    (hm : c.mode = "pure") (hw : c.w_tau = some wt) (hA : c.A = some A) :
    forwardCore P c (.single inp) hx ts g =
      .ok (decayUpdate P A wt ts (ff1Val c (matCat inp hx) g) (ff1Val c (matCat inp hx) g),
           some (tauUpdate wt (ff1Val c (matCat inp hx) g)),
           (bboneStep c (matCat inp hx) g).2) := by
  unfold forwardCore
  simp only [hm, hw, hA, reduceIte, ff1Val]
  rw [if_neg (show ¬("pure" : String) = "neuromodulated" by decide)]

/-- Claim C1: in mode `pure`, for every input, hidden state and `ts`,
`forward` computes `ff1` as the (masked-or-raw) affine projection of the
backbone output and returns
`new_hidden = -A * exp(-ts * (|w_tau| + |ff1|)) * ff1 + A`, overwriting
the diagnostic buffer `tau_system` with the elementwise reciprocal
`1 / (|w_tau| + |ff1|)`. -/
theorem C1_pure_forward (P : MathPrims) (c : CfCCell) (wt A : Vec) (inp hx : Mat)
    (ts : ℚ) (g : Rng)
    (hm : c.mode = "pure") (hw : c.w_tau = some wt) (hA : c.A = some A) :
    ∃ NH TAU F : Mat,
      CfCCell.forward P c (.single inp) hx ts g =
        .ok ((NH, NH), { c with tau_system := .recorded TAU },
             (bboneStep c (matCat inp hx) g).2) ∧
      F = ff1Val c (matCat inp hx) g ∧
      NH.length = F.length ∧
      (∀ (i j : ℕ) (hni : i < NH.length) (hnj : j < (NH[i]).length)
          (hA2 : j < A.length) (hw2 : j < wt.length)
          (hfi : i < F.length) (hfj : j < (F[i]).length),
        (NH[i])[j] =
          -(A[j]) * P.exp (-ts * (|wt[j]| + |(F[i])[j]|)) * ((F[i])[j]) + A[j]) ∧
      TAU.length = F.length ∧
      (∀ (i j : ℕ) (hti : i < TAU.length) (htj : j < (TAU[i]).length)
          (hw2 : j < wt.length) (hfi : i < F.length) (hfj : j < (F[i]).length),
        (TAU[i])[j] = 1 / (|wt[j]| + |(F[i])[j]|)) := by
  refine ⟨decayUpdate P A wt ts (ff1Val c (matCat inp hx) g) (ff1Val c (matCat inp hx) g),
    tauUpdate wt (ff1Val c (matCat inp hx) g), ff1Val c (matCat inp hx) g,
    ?_, rfl, ?_, ?_, ?_, ?_⟩
  · rw [CfCCell.forward, forwardCore_pure P c wt A inp hx ts g hm hw hA]
    rfl
  · simp [decayUpdate_length]
  · intro i j hni hnj hA2 hw2 hfi hfj
    exact decayUpdate_getElem P A wt ts _ _ i j hfi hfi hA2 hw2 hfj hfj hni hnj
  · simp [tauUpdate_length]
  · intro i j hti htj hw2 hfi hfj
    exact tauUpdate_getElem wt _ i j hfi hw2 hfj hti htj

/-- Concrete activation primitives for witnesses (the claim theorems hold
for every choice of `MathPrims`, so any computable functions serve). -/
def P₀ : MathPrims :=
  { exp := fun x => 1 + x, tanh := fun x => x, sigmoid := fun x => x,
    silu := fun x => x, gelu := fun x => x }

/-- A concrete cell in mode `pure` (hidden size 2, input size 1, no
backbone, no mask). -/
def cellPure : CfCCell :=
  { input_size := 1, hidden_size := 2, sparsity_mask := none, mode := "pure",
    neuromod_network_dims := none, backbone := [], backbone_layers := 0,
    ff1 := { weight := [[1, 0, 2], [0, 1, 1]], bias := [1, -1] },
    w_tau := some [1, -2], A := some [2, 3], neuromod := none,
    ff2 := none, time_a := none, time_b := none,
    tau_system := .init 2, training := true }

theorem C1_pure_forward_witness :
    ∃ NH TAU F : Mat,
      CfCCell.forward P₀ cellPure (.single [[1]]) [[1, 1]] (1/2) (fun _ => 0) =
        .ok ((NH, NH), { cellPure with tau_system := .recorded TAU },
             (bboneStep cellPure (matCat [[1]] [[1, 1]]) (fun _ => 0)).2) ∧
      F = ff1Val cellPure (matCat [[1]] [[1, 1]]) (fun _ => 0) ∧
      NH.length = F.length ∧
      (∀ (i j : ℕ) (hni : i < NH.length) (hnj : j < (NH[i]).length)
          (hA2 : j < ([2, 3] : Vec).length) (hw2 : j < ([1, -2] : Vec).length)
          (hfi : i < F.length) (hfj : j < (F[i]).length),
        (NH[i])[j] =
          -(([2, 3] : Vec)[j]) *
              P₀.exp (-(1/2) * (|([1, -2] : Vec)[j]| + |(F[i])[j]|)) * ((F[i])[j]) +
            ([2, 3] : Vec)[j]) ∧
      TAU.length = F.length ∧
      (∀ (i j : ℕ) (hti : i < TAU.length) (htj : j < (TAU[i]).length)
          (hw2 : j < ([1, -2] : Vec).length)
          (hfi : i < F.length) (hfj : j < (F[i]).length),
        (TAU[i])[j] = 1 / (|([1, -2] : Vec)[j]| + |(F[i])[j]|)) :=
  C1_pure_forward P₀ cellPure [1, -2] [2, 3] [[1]] [[1, 1]] (1/2) (fun _ => 0)
    rfl rfl rfl

theorem forwardCore_neuromodulated (P : MathPrims) (c : CfCCell) (wt A : Vec)
    (nm : NeuromodNet) (p nin hx S : Mat) (ts : ℚ) (g : Rng)
    (hm : c.mode = "neuromodulated") (hw : c.w_tau = some wt) (hA : c.A = some A)
    (hnm : c.neuromod = some nm) (hrun : nm.run nin = .ok S) :
    forwardCore P c (.tuple p nin) hx ts g =
      .ok (decayUpdate P A wt ts S (ff1Val c (matCat p hx) g),
           some (tauUpdate wt S),
           (bboneStep c (matCat p hx) g).2) := by
  unfold forwardCore
  simp only [hm, hw, hA, hnm, reduceIte, ff1Val]
  rw [if_neg (show ¬("neuromodulated" : String) = "pure" by decide)]
  simp only [hrun]

/-- Claim C2: in mode `neuromodulated`, for every `(policy_input,
neuromod_input)` pair, hidden state and `ts`, the decay is computed from
the neuromodulation signal (`decay = |w_tau| + |neuromod(neuromod_input)|`)
while the magnitude term remains `ff1`, computed from the concatenation of
`policy_input` and `hidden`; `forward` returns
`new_hidden = -A * exp(-ts * decay) * ff1 + A` and records
`tau_system = 1 / decay`. -/
theorem C2_neuromodulated_forward (P : MathPrims) (c : CfCCell) (wt A : Vec)
    (nm : NeuromodNet) (p nin hx S : Mat) (ts : ℚ) (g : Rng)
    (hm : c.mode = "neuromodulated") (hw : c.w_tau = some wt) (hA : c.A = some A)
    (hnm : c.neuromod = some nm) (hrun : nm.run nin = .ok S) :
    ∃ NH TAU F : Mat,
      CfCCell.forward P c (.tuple p nin) hx ts g =
        .ok ((NH, NH), { c with tau_system := .recorded TAU },
             (bboneStep c (matCat p hx) g).2) ∧
      F = ff1Val c (matCat p hx) g ∧
      NH.length = min S.length F.length ∧
      (∀ (i j : ℕ) (hni : i < NH.length) (hnj : j < (NH[i]).length)
          (hA2 : j < A.length) (hw2 : j < wt.length)
          (hsi : i < S.length) (hsj : j < (S[i]).length)
          (hfi : i < F.length) (hfj : j < (F[i]).length),
        (NH[i])[j] =
          -(A[j]) * P.exp (-ts * (|wt[j]| + |(S[i])[j]|)) * ((F[i])[j]) + A[j]) ∧
      TAU.length = S.length ∧
      (∀ (i j : ℕ) (hti : i < TAU.length) (htj : j < (TAU[i]).length)
          (hw2 : j < wt.length) (hsi : i < S.length) (hsj : j < (S[i]).length),
        (TAU[i])[j] = 1 / (|wt[j]| + |(S[i])[j]|)) := by
  refine ⟨decayUpdate P A wt ts S (ff1Val c (matCat p hx) g),
    tauUpdate wt S, ff1Val c (matCat p hx) g, ?_, rfl, ?_, ?_, ?_, ?_⟩
  · rw [CfCCell.forward, forwardCore_neuromodulated P c wt A nm p nin hx S ts g hm hw hA hnm hrun]
    rfl
  · simp [decayUpdate_length]
  · intro i j hni hnj hA2 hw2 hsi hsj hfi hfj
    exact decayUpdate_getElem P A wt ts _ _ i j hsi hfi hA2 hw2 hsj hfj hni hnj
  · simp [tauUpdate_length]
  · intro i j hti htj hw2 hsi hsj
    exact tauUpdate_getElem wt _ i j hsi hw2 hsj hti htj

/-- A concrete cell in mode `neuromodulated` (hidden size 2, input size 1,
no backbone, one neuromodulation layer of width 2 → 2). -/
def cellNeuro : CfCCell :=
  { input_size := 1, hidden_size := 2, sparsity_mask := none,
    mode := "neuromodulated", neuromod_network_dims := some [2, 2],
    backbone := [], backbone_layers := 0,
    ff1 := { weight := [[1, 0, 2], [0, 1, 1]], bias := [1, -1] },
    w_tau := some [1, -2], A := some [2, 3],
    neuromod := some (.seq [{ weight := [[1, 1], [0, 1]], bias := [0, 1] }] (fun x => x)),
    ff2 := none, time_a := none, time_b := none,
    tau_system := .init 2, training := true }

theorem C2_neuromodulated_forward_witness :
    ∃ NH TAU F : Mat,
      CfCCell.forward P₀ cellNeuro (.tuple [[1]] [[2, 5]]) [[1, 1]] (1/2) (fun _ => 0) =
        .ok ((NH, NH), { cellNeuro with tau_system := .recorded TAU },
             (bboneStep cellNeuro (matCat [[1]] [[1, 1]]) (fun _ => 0)).2) ∧
      F = ff1Val cellNeuro (matCat [[1]] [[1, 1]]) (fun _ => 0) ∧
      NH.length = min ([[7, 6]] : Mat).length F.length ∧
      (∀ (i j : ℕ) (hni : i < NH.length) (hnj : j < (NH[i]).length)
          (hA2 : j < ([2, 3] : Vec).length) (hw2 : j < ([1, -2] : Vec).length)
          (hsi : i < ([[7, 6]] : Mat).length) (hsj : j < (([[7, 6]] : Mat)[i]).length)
          (hfi : i < F.length) (hfj : j < (F[i]).length),
        (NH[i])[j] =
          -(([2, 3] : Vec)[j]) *
              P₀.exp (-(1/2) * (|([1, -2] : Vec)[j]| + |((([[7, 6]] : Mat)[i]))[j]|)) *
              ((F[i])[j]) + ([2, 3] : Vec)[j]) ∧
      TAU.length = ([[7, 6]] : Mat).length ∧
      (∀ (i j : ℕ) (hti : i < TAU.length) (htj : j < (TAU[i]).length)
          (hw2 : j < ([1, -2] : Vec).length)
          (hsi : i < ([[7, 6]] : Mat).length) (hsj : j < (([[7, 6]] : Mat)[i]).length),
        (TAU[i])[j] = 1 / (|([1, -2] : Vec)[j]| + |((([[7, 6]] : Mat)[i]))[j]|)) :=
  C2_neuromodulated_forward P₀ cellNeuro [1, -2] [2, 3]
    (.seq [{ weight := [[1, 1], [0, 1]], bias := [0, 1] }] (fun x => x))
    [[1]] [[2, 5]] [[1, 1]] [[7, 6]] (1/2) (fun _ => 0) rfl rfl rfl rfl
    (by norm_num [NeuromodNet.run, seqRun, matMap, linearW, dotQ])

/- ### Frame property of `forward` -/

theorem forward_ok_inv (P : MathPrims) (c : CfCCell) (input : CfCInput) (hx : Mat)
    (ts : ℚ) (g : Rng) (out : Mat × Mat) (c₂ : CfCCell) (g₂ : Rng)
    (h : CfCCell.forward P c input hx ts g = .ok (out, c₂, g₂)) :
    ∃ tw : Option Mat, forwardCore P c input hx ts g = .ok (out.1, tw, g₂) ∧
      out.2 = out.1 ∧
      c₂ = { c with tau_system := tw.elim c.tau_system TauBuf.recorded } := by
  unfold CfCCell.forward at h
  cases hc : forwardCore P c input hx ts g with
  | error e => rw [hc] at h; simp [Except.map] at h
  | ok r =>
    rw [hc] at h
    simp only [Except.map, Except.ok.injEq, Prod.mk.injEq] at h
    obtain ⟨h1, h3, h4⟩ := h
    subst h1
    subst h3
    subst h4
    exact ⟨r.2.1, rfl, rfl, rfl⟩

theorem forwardCore_other_mode_no_tau (P : MathPrims) (c : CfCCell) (input : CfCInput)
    (hx : Mat) (ts : ℚ) (g : Rng) (r : Mat × Option Mat × Rng)
    (hp : c.mode ≠ "pure") (hn : c.mode ≠ "neuromodulated")
    (h : forwardCore P c input hx ts g = .ok r) : r.2.1 = none := by
  unfold forwardCore at h
  rw [if_neg hn] at h
  cases input with
  | tuple p nin => simp at h
  | single t =>
    simp only at h
    rw [if_neg hp, if_neg hn] at h
    cases hf2 : c.ff2 with
    | none => rw [hf2] at h; simp at h
    | some f2 =>
      cases hta : c.time_a with
      | none => rw [hf2, hta] at h; simp at h
      | some ta =>
        cases htb : c.time_b with
        | none => rw [hf2, hta, htb] at h; simp at h
        | some tb =>
          rw [hf2, hta, htb] at h
          simp only [Except.ok.injEq] at h
          rw [← h]

/-- Claim C9: a `forward` call never mutates any trainable parameter, the
sparsity mask, or any other cell field except the diagnostic `tau_system`
buffer; outside the `pure` and `neuromodulated` modes even `tau_system` is
untouched. -/
theorem C9_forward_frame (P : MathPrims) (c : CfCCell) (input : CfCInput) (hx : Mat)
    (ts : ℚ) (g : Rng) (out : Mat × Mat) (c₂ : CfCCell) (g₂ : Rng)
    (h : CfCCell.forward P c input hx ts g = .ok (out, c₂, g₂)) :
    c₂ = { c with tau_system := c₂.tau_system } ∧
      (c.mode ≠ "pure" → c.mode ≠ "neuromodulated" → c₂ = c) := by
  obtain ⟨tw, hcore, hout, hcell⟩ := forward_ok_inv P c input hx ts g out c₂ g₂ h
  constructor
  · rw [hcell]
  · intro hp hn
    have hnone := forwardCore_other_mode_no_tau P c input hx ts g _ hp hn hcore
    have htw : tw = none := by simpa using hnone
    subst htw
    simp only [Option.elim] at hcell
    rw [hcell]

theorem C9_forward_frame_witness :
    ∃ out c₂ g₂,
      CfCCell.forward P₀ cellPure (.single [[1]]) [[1, 1]] (1/2) (fun _ => 0) =
        .ok (out, c₂, g₂) ∧
      (c₂ = { cellPure with tau_system := c₂.tau_system } ∧
        (cellPure.mode ≠ "pure" → cellPure.mode ≠ "neuromodulated" → c₂ = cellPure)) := by
  have hfc : CfCCell.forward P₀ cellPure (.single [[1]]) [[1, 1]] (1/2) (fun _ => 0) =
      .ok ((decayUpdate P₀ [2, 3] [1, -2] (1/2)
              (ff1Val cellPure (matCat [[1]] [[1, 1]]) (fun _ => 0))
              (ff1Val cellPure (matCat [[1]] [[1, 1]]) (fun _ => 0)),
            decayUpdate P₀ [2, 3] [1, -2] (1/2)
              (ff1Val cellPure (matCat [[1]] [[1, 1]]) (fun _ => 0))
              (ff1Val cellPure (matCat [[1]] [[1, 1]]) (fun _ => 0))),
           { cellPure with tau_system :=
              TauBuf.recorded (tauUpdate [1, -2] (ff1Val cellPure (matCat [[1]] [[1, 1]]) (fun _ => 0))) },
           (bboneStep cellPure (matCat [[1]] [[1, 1]]) (fun _ => 0)).2) := by
    rw [CfCCell.forward,
      forwardCore_pure P₀ cellPure [1, -2] [2, 3] [[1]] [[1, 1]] (1/2) (fun _ => 0) rfl rfl rfl]
    rfl
  exact ⟨_, _, _, hfc,
    C9_forward_frame P₀ cellPure (.single [[1]]) [[1, 1]] (1/2) (fun _ => 0) _ _ _ hfc⟩

/- ### Shapes of `forward` outputs -/

/-- Every row of `m` has width `n`. -/
def RowsAre (m : Mat) (n : ℕ) : Prop :=
  ∀ (i : ℕ) (h : i < m.length), (m[i]).length = n

theorem RowsAre_linearW (w : Mat) (b : Vec) (x : Mat) (n : ℕ)
    (h : min w.length b.length = n) : RowsAre (linearW w b x) n := by
  intro i hi
  rw [linearW_row_length w b x i hi, h]

theorem RowsAre_matMap (f : ℚ → ℚ) (m : Mat) (n : ℕ) (h : RowsAre m n) :
    RowsAre (matMap f m) n := by
  intro i hi
  have hm : i < m.length := by simpa [matMap_length] using hi
  rw [matMap_row_length f m i hm hi]
  exact h i hm

theorem matAdd_length (a b : Mat) : (matAdd a b).length = min a.length b.length := by
  simp [matAdd]

theorem matHad_length (a b : Mat) : (matHad a b).length = min a.length b.length := by
  simp [matHad]

theorem RowsAre_matAdd (a b : Mat) (n : ℕ) (ha : RowsAre a n) (hb : RowsAre b n) :
    RowsAre (matAdd a b) n := by
  intro i hi
  have hl : i < a.length ∧ i < b.length := by
    constructor <;> [skip; skip] <;>
      · have := hi
        rw [matAdd_length] at this
        omega
  simp only [matAdd, List.getElem_zipWith, List.length_zipWith]
  rw [ha i hl.1, hb i hl.2, min_self]

theorem RowsAre_matHad (a b : Mat) (n : ℕ) (ha : RowsAre a n) (hb : RowsAre b n) :
    RowsAre (matHad a b) n := by
  intro i hi
  have hl : i < a.length ∧ i < b.length := by
    constructor <;> [skip; skip] <;>
      · have := hi
        rw [matHad_length] at this
        omega
  simp only [matHad, List.getElem_zipWith, List.length_zipWith]
  rw [ha i hl.1, hb i hl.2, min_self]

theorem RowsAre_decayUpdate (P : MathPrims) (A wt : Vec) (ts : ℚ) (s m : Mat) (n : ℕ)
    (hA : A.length = n) (hw : wt.length = n) (hs : RowsAre s n) (hm : RowsAre m n) :
    RowsAre (decayUpdate P A wt ts s m) n := by
  intro i hi
  have hl : i < s.length ∧ i < m.length := by
    constructor <;> [skip; skip] <;>
      · have := hi
        rw [decayUpdate_length] at this
        omega
  rw [decayUpdate_row_length P A wt ts s m i hl.1 hl.2 hi, hA, hw,
    hs i hl.1, hm i hl.2]
  omega

theorem RowsAre_tauUpdate (wt : Vec) (src : Mat) (n : ℕ)
    (hw : wt.length = n) (hs : RowsAre src n) : RowsAre (tauUpdate wt src) n := by
  intro i hi
  have hsi : i < src.length := by simpa [tauUpdate_length] using hi
  rw [tauUpdate_row_length wt src i hsi hi, hw, hs i hsi]
  omega

/-- The hidden-state value computed by the `default`/`no_gate` branch of
`forward` (the classic CfC gate). -/
def gateNH (P : MathPrims) (c : CfCCell) (f2 ta tb : LinearP) (x₀ : Mat) (ts : ℚ)
    (g : Rng) : Mat :=
  let x := (bboneStep c x₀ g).1
  let f1t := matMap P.tanh (linearW (ff1W c) c.ff1.bias x)
  let f2t := matMap P.tanh (linearW (maskedW c.sparsity_mask f2.weight) f2.bias x)
  let tInterp := matMap P.sigmoid
    (matAdd (matScale ts (linearW ta.weight ta.bias x)) (linearW tb.weight tb.bias x))
  if c.mode = "no_gate" then matAdd f1t (matHad tInterp f2t)
  else matAdd (matHad f1t (matOneMinus tInterp)) (matHad tInterp f2t)

theorem forwardCore_default (P : MathPrims) (c : CfCCell) (f2 ta tb : LinearP)
    (inp hx : Mat) (ts : ℚ) (g : Rng)
    (hp : c.mode ≠ "pure") (hn : c.mode ≠ "neuromodulated")
    (hf2 : c.ff2 = some f2) (hta : c.time_a = some ta) (htb : c.time_b = some tb) :
    forwardCore P c (.single inp) hx ts g =
      .ok (gateNH P c f2 ta tb (matCat inp hx) ts g, none,
           (bboneStep c (matCat inp hx) g).2) := by
  unfold forwardCore gateNH
  rw [if_neg hn]
  simp only [hf2, hta, htb]
  rw [if_neg hp, if_neg hn]

/-- Shape well-formedness of a cell: what the constructor guarantees about
the head parameters (each head projection yields rows of width
`hidden_size`). -/
def WF (c : CfCCell) : Prop :=
  (ff1W c).length = c.hidden_size ∧
  c.ff1.bias.length = c.hidden_size ∧
  (c.mode = "pure" →
    ∃ wt A, c.w_tau = some wt ∧ c.A = some A ∧
      wt.length = c.hidden_size ∧ A.length = c.hidden_size) ∧
  (c.mode = "neuromodulated" →
    ∃ wt A ls a, c.w_tau = some wt ∧ c.A = some A ∧
      c.neuromod = some (.seq ls a) ∧
      wt.length = c.hidden_size ∧ A.length = c.hidden_size ∧
      ∀ lst, ls.getLast? = some lst →
        lst.weight.length = c.hidden_size ∧ lst.bias.length = c.hidden_size) ∧
  (c.mode ≠ "pure" → c.mode ≠ "neuromodulated" →
    ∃ f2 ta tb, c.ff2 = some f2 ∧ c.time_a = some ta ∧ c.time_b = some tb ∧
      (maskedW c.sparsity_mask f2.weight).length = c.hidden_size ∧
      f2.bias.length = c.hidden_size ∧
      ta.weight.length = c.hidden_size ∧ ta.bias.length = c.hidden_size ∧
      tb.weight.length = c.hidden_size ∧ tb.bias.length = c.hidden_size)

/-- Shape correctness of a `forward` argument: a batch-compatible tuple in
`neuromodulated` mode (with rows of width `hidden_size` when the
neuromodulation stack is empty and hence the identity), a batch-compatible
plain tensor otherwise. -/
def InputOK (c : CfCCell) (input : CfCInput) (hx : Mat) : Prop :=
  (c.mode = "neuromodulated" →
    ∃ p nin, input = .tuple p nin ∧ p.length = hx.length ∧ nin.length = hx.length ∧
      (∀ ls a, c.neuromod = some (.seq ls a) → ls = [] → RowsAre nin c.hidden_size)) ∧
  (c.mode ≠ "neuromodulated" → ∃ t, input = .single t ∧ t.length = hx.length)

theorem ff1Val_length (c : CfCCell) (x₀ : Mat) (g : Rng) :
    (ff1Val c x₀ g).length = x₀.length := by
  simp [ff1Val, linearW_length, bboneStep_length]

theorem RowsAre_ff1Val (c : CfCCell) (x₀ : Mat) (g : Rng)
    (hW : (ff1W c).length = c.hidden_size) (hb : c.ff1.bias.length = c.hidden_size) :
    RowsAre (ff1Val c x₀ g) c.hidden_size := by
  unfold ff1Val
  exact RowsAre_linearW _ _ _ _ (by rw [hW, hb, min_self])

/-- Claim C7: in every mode, given a hidden state of shape
`(batch, hidden_size)` and correctly shaped inputs, `forward` returns a
pair whose two components are the same tensor, of shape
`(batch, hidden_size)`. -/
theorem C7_forward_shape (P : MathPrims) (c : CfCCell) (input : CfCInput) (hx : Mat)
    (ts : ℚ) (g : Rng)
    (hmode : c.mode ∈ (["default", "pure", "no_gate", "neuromodulated"] : List String))
    (hwf : WF c) (hin : InputOK c input hx) :
    ∃ (NH : Mat) (c₂ : CfCCell) (g₂ : Rng),
      CfCCell.forward P c input hx ts g = .ok ((NH, NH), c₂, g₂) ∧
      NH.length = hx.length ∧ RowsAre NH c.hidden_size := by
  obtain ⟨hW, hb, hpure, hneuro, hgate⟩ := hwf
  simp only [List.mem_cons, List.mem_singleton, List.not_mem_nil, or_false] at hmode
  have hcat : ∀ t : Mat, t.length = hx.length → (matCat t hx).length = hx.length := by
    intro t ht
    rw [matCat_length, ht, min_self]
  rcases hmode with hm | hm | hm | hm
  -- default
  · obtain ⟨t, hts, htl⟩ := hin.2 (by rw [hm]; decide)
    subst hts
    obtain ⟨f2, ta, tb, hf2, hta, htb, h1, h2, h3, h4, h5, h6⟩ :=
      hgate (by rw [hm]; decide) (by rw [hm]; decide)
    have hfwd : CfCCell.forward P c (.single t) hx ts g =
        .ok ((gateNH P c f2 ta tb (matCat t hx) ts g,
              gateNH P c f2 ta tb (matCat t hx) ts g), c,
             (bboneStep c (matCat t hx) g).2) := by
      rw [CfCCell.forward, forwardCore_default P c f2 ta tb t hx ts g
        (by rw [hm]; decide) (by rw [hm]; decide) hf2 hta htb]
      rfl
    refine ⟨_, _, _, hfwd, ?_, ?_⟩
    · have hx0 : (bboneStep c (matCat t hx) g).1.length = hx.length := by
        rw [bboneStep_length, hcat t htl]
      unfold gateNH
      by_cases hng : c.mode = "no_gate"
      · simp only [hng, reduceIte, matAdd_length, matHad_length, matMap_length,
          linearW_length, matScale, matOneMinus, hx0]
        omega
      · simp only [hng, reduceIte, matAdd_length, matHad_length, matMap_length,
          linearW_length, matScale, matOneMinus, hx0]
        omega
    · unfold gateNH
      have hf1t : RowsAre (matMap P.tanh
          (linearW (ff1W c) c.ff1.bias (bboneStep c (matCat t hx) g).1)) c.hidden_size :=
        RowsAre_matMap _ _ _ (RowsAre_linearW _ _ _ _ (by rw [hW, hb, min_self]))
      have hf2t : RowsAre (matMap P.tanh
          (linearW (maskedW c.sparsity_mask f2.weight) f2.bias
            (bboneStep c (matCat t hx) g).1)) c.hidden_size :=
        RowsAre_matMap _ _ _ (RowsAre_linearW _ _ _ _ (by rw [h1, h2, min_self]))
      have hti : RowsAre (matMap P.sigmoid
          (matAdd (matScale ts (linearW ta.weight ta.bias (bboneStep c (matCat t hx) g).1))
            (linearW tb.weight tb.bias (bboneStep c (matCat t hx) g).1))) c.hidden_size := by
        refine RowsAre_matMap _ _ _ (RowsAre_matAdd _ _ _ ?_ ?_)
        · exact RowsAre_matMap _ _ _ (RowsAre_linearW _ _ _ _ (by rw [h3, h4, min_self]))
        · exact RowsAre_linearW _ _ _ _ (by rw [h5, h6, min_self])
      by_cases hng : c.mode = "no_gate"
      · simp only [hng, reduceIte]
        exact RowsAre_matAdd _ _ _ hf1t (RowsAre_matHad _ _ _ hti hf2t)
      · simp only [hng, reduceIte]
        exact RowsAre_matAdd _ _ _
          (RowsAre_matHad _ _ _ hf1t (RowsAre_matMap _ _ _ hti)) (RowsAre_matHad _ _ _ hti hf2t)
  -- pure
  · obtain ⟨t, hts, htl⟩ := hin.2 (by rw [hm]; decide)
    subst hts
    obtain ⟨wt, A, hwt, hA, hwl, hAl⟩ := hpure hm
    have hfwd : CfCCell.forward P c (.single t) hx ts g =
        .ok ((decayUpdate P A wt ts (ff1Val c (matCat t hx) g) (ff1Val c (matCat t hx) g),
              decayUpdate P A wt ts (ff1Val c (matCat t hx) g) (ff1Val c (matCat t hx) g)),
             { c with tau_system :=
                TauBuf.recorded (tauUpdate wt (ff1Val c (matCat t hx) g)) },
             (bboneStep c (matCat t hx) g).2) := by
      rw [CfCCell.forward, forwardCore_pure P c wt A t hx ts g hm hwt hA]
      rfl
    refine ⟨_, _, _, hfwd, ?_, ?_⟩
    · rw [decayUpdate_length, min_self, ff1Val_length, hcat t htl]
    · exact RowsAre_decayUpdate P A wt ts _ _ _ hAl hwl
        (RowsAre_ff1Val c _ g hW hb) (RowsAre_ff1Val c _ g hW hb)
  -- no_gate
  · obtain ⟨t, hts, htl⟩ := hin.2 (by rw [hm]; decide)
    subst hts
    obtain ⟨f2, ta, tb, hf2, hta, htb, h1, h2, h3, h4, h5, h6⟩ :=
      hgate (by rw [hm]; decide) (by rw [hm]; decide)
    have hfwd : CfCCell.forward P c (.single t) hx ts g =
        .ok ((gateNH P c f2 ta tb (matCat t hx) ts g,
              gateNH P c f2 ta tb (matCat t hx) ts g), c,
             (bboneStep c (matCat t hx) g).2) := by
      rw [CfCCell.forward, forwardCore_default P c f2 ta tb t hx ts g
        (by rw [hm]; decide) (by rw [hm]; decide) hf2 hta htb]
      rfl
    refine ⟨_, _, _, hfwd, ?_, ?_⟩
    · have hx0 : (bboneStep c (matCat t hx) g).1.length = hx.length := by
        rw [bboneStep_length, hcat t htl]
      unfold gateNH
      simp only [hm, reduceIte, matAdd_length, matHad_length, matMap_length,
        linearW_length, matScale, matOneMinus, hx0]
      omega
    · unfold gateNH
      have hf1t : RowsAre (matMap P.tanh
          (linearW (ff1W c) c.ff1.bias (bboneStep c (matCat t hx) g).1)) c.hidden_size :=
        RowsAre_matMap _ _ _ (RowsAre_linearW _ _ _ _ (by rw [hW, hb, min_self]))
      have hf2t : RowsAre (matMap P.tanh
          (linearW (maskedW c.sparsity_mask f2.weight) f2.bias
            (bboneStep c (matCat t hx) g).1)) c.hidden_size :=
        RowsAre_matMap _ _ _ (RowsAre_linearW _ _ _ _ (by rw [h1, h2, min_self]))
      have hti : RowsAre (matMap P.sigmoid
          (matAdd (matScale ts (linearW ta.weight ta.bias (bboneStep c (matCat t hx) g).1))
            (linearW tb.weight tb.bias (bboneStep c (matCat t hx) g).1))) c.hidden_size := by
        refine RowsAre_matMap _ _ _ (RowsAre_matAdd _ _ _ ?_ ?_)
        · exact RowsAre_matMap _ _ _ (RowsAre_linearW _ _ _ _ (by rw [h3, h4, min_self]))
        · exact RowsAre_linearW _ _ _ _ (by rw [h5, h6, min_self])
      simp only [hm, reduceIte]
      exact RowsAre_matAdd _ _ _ hf1t (RowsAre_matHad _ _ _ hti hf2t)
  -- neuromodulated
  · obtain ⟨p, nin, hts, hpl, hnl, hnrows⟩ := hin.1 hm
    subst hts
    obtain ⟨wt, A, ls, a, hwt, hA, hnm, hwl, hAl, hlast⟩ := hneuro hm
    have hrun : NeuromodNet.run (.seq ls a) nin = .ok (seqRun a ls nin) := rfl
    have hS_len : (seqRun a ls nin).length = hx.length := by
      rw [seqRun_length, hnl]
    have hS_rows : RowsAre (seqRun a ls nin) c.hidden_size := by
      cases hls : ls with
      | nil =>
        subst hls
        exact hnrows [] a hnm rfl
      | cons l ls2 =>
        subst hls
        cases hlst : (l :: ls2).getLast? with
        | none => simp [List.getLast?_eq_none_iff] at hlst
        | some lst =>
          intro i hi
          obtain ⟨hlw, hlb⟩ := hlast lst hlst
          rw [seqRun_row_length a (l :: ls2) nin lst hlst i hi, hlw, hlb, min_self]
    have hfwd : CfCCell.forward P c (.tuple p nin) hx ts g =
        .ok ((decayUpdate P A wt ts (seqRun a ls nin) (ff1Val c (matCat p hx) g),
              decayUpdate P A wt ts (seqRun a ls nin) (ff1Val c (matCat p hx) g)),
             { c with tau_system := TauBuf.recorded (tauUpdate wt (seqRun a ls nin)) },
             (bboneStep c (matCat p hx) g).2) := by
      rw [CfCCell.forward,
        forwardCore_neuromodulated P c wt A (.seq ls a) p nin hx (seqRun a ls nin) ts g
          hm hwt hA hnm hrun]
      rfl
    refine ⟨_, _, _, hfwd, ?_, ?_⟩
    · rw [decayUpdate_length, hS_len, ff1Val_length, hcat p hpl, min_self]
    · exact RowsAre_decayUpdate P A wt ts _ _ _ hAl hwl hS_rows
        (RowsAre_ff1Val c _ g hW hb)

/- ### `no_gate` at `ts = 0` -/

theorem zipWith_add_map_zero (mi bi : Vec) (h : mi.length = bi.length) :
    List.zipWith (· + ·) (mi.map fun v => v * 0) bi = bi := by
  induction mi generalizing bi with
  | nil => cases bi with | nil => rfl | cons y ys => simp at h
  | cons x xs ih =>
    cases bi with
    | nil => simp at h
    | cons y ys =>
      simp only [List.map_cons, List.zipWith_cons_cons]
      rw [mul_zero, zero_add, ih ys (by simpa using h)]

theorem matAdd_scale_zero (m b : Mat) (hrows : m.length = b.length)
    (hwid : ∀ (i : ℕ) (h1 : i < m.length) (h2 : i < b.length),
      (m[i]).length = (b[i]).length) :
    matAdd (matScale 0 m) b = b := by
  apply List.ext_getElem
  · rw [matAdd_length, matScale, matMap_length, hrows, min_self]
  · intro i h1 h2
    have him : i < m.length := by
      rw [matAdd_length, matScale, matMap_length] at h1
      omega
    simp only [matAdd, List.getElem_zipWith, matScale, matMap, List.getElem_map]
    exact zipWith_add_map_zero (m[i]) (b[i]) (hwid i him h2)

/-- With `ts = 0` the gate logits `t_a * ts + t_b` collapse to `t_b`
(given shape-compatible `time_a`/`time_b`). -/
theorem tinterp_zero (ta tb : LinearP) (x : Mat)
    (hw : ta.weight.length = tb.weight.length)
    (hb : ta.bias.length = tb.bias.length) :
    matAdd (matScale 0 (linearW ta.weight ta.bias x)) (linearW tb.weight tb.bias x) =
      linearW tb.weight tb.bias x := by
  apply matAdd_scale_zero
  · simp [linearW_length]
  · intro i h1 h2
    rw [linearW_row_length _ _ _ i h1, linearW_row_length _ _ _ i h2, hw, hb]

theorem gateNH_time_a_irrelevant (P : MathPrims) (c : CfCCell) (ta2 f2 ta tb : LinearP)
    (x₀ : Mat) (ts : ℚ) (g : Rng) :
    gateNH P { c with time_a := some ta2 } f2 ta tb x₀ ts g =
      gateNH P c f2 ta tb x₀ ts g := by
  cases c
  rfl

/-- Claim C8: for a `no_gate` cell at `ts = 0`, the interpolation weight is
`sigmoid(t_b(x))` and is independent of the `time_a` parameters (replacing
`time_a` by any same-shaped layer leaves the output unchanged), and the new
hidden state equals `tanh(ff1) + sigmoid(t_b(x)) * tanh(ff2)`. -/
theorem C8_no_gate_ts_zero (P : MathPrims) (c : CfCCell) (f2 ta tb : LinearP)
    (inp hx : Mat) (g : Rng)
    (hm : c.mode = "no_gate") (hf2 : c.ff2 = some f2) (hta : c.time_a = some ta)
    (htb : c.time_b = some tb)
    (hsw : ta.weight.length = tb.weight.length)
    (hsb : ta.bias.length = tb.bias.length) :
    (∀ ta2 : LinearP, ta2.weight.length = ta.weight.length →
      ta2.bias.length = ta.bias.length →
      fwdOut P { c with time_a := some ta2 } (.single inp) hx 0 g =
        fwdOut P c (.single inp) hx 0 g) ∧
    ∃ NH : Mat,
      CfCCell.forward P c (.single inp) hx 0 g =
        .ok ((NH, NH), c, (bboneStep c (matCat inp hx) g).2) ∧
      NH = matAdd (matMap P.tanh (ff1Val c (matCat inp hx) g))
        (matHad
          (matMap P.sigmoid
            (linearW tb.weight tb.bias (bboneStep c (matCat inp hx) g).1))
          (matMap P.tanh
            (linearW (maskedW c.sparsity_mask f2.weight) f2.bias
              (bboneStep c (matCat inp hx) g).1))) := by
  have hp : c.mode ≠ "pure" := by rw [hm]; decide
  have hn : c.mode ≠ "neuromodulated" := by rw [hm]; decide
  constructor
  · intro ta2 hw2 hb2
    unfold fwdOut CfCCell.forward
    rw [forwardCore_default P { c with time_a := some ta2 } f2 ta2 tb inp hx 0 g
        hp hn hf2 rfl htb,
      forwardCore_default P c f2 ta tb inp hx 0 g hp hn hf2 hta htb]
    simp only [Except.map]
    rw [gateNH_time_a_irrelevant]
    unfold gateNH
    simp only [hm, reduceIte]
    rw [tinterp_zero ta2 tb _ (by rw [hw2, hsw]) (by rw [hb2, hsb]),
      tinterp_zero ta tb _ hsw hsb]
  · refine ⟨gateNH P c f2 ta tb (matCat inp hx) 0 g, ?_, ?_⟩
    · rw [CfCCell.forward, forwardCore_default P c f2 ta tb inp hx 0 g hp hn hf2 hta htb]
      rfl
    · unfold gateNH
      simp only [hm, reduceIte]
      rw [tinterp_zero ta tb _ hsw hsb]
      rfl

/-- A concrete cell in mode `no_gate` (hidden size 2, input size 1). -/
def cellGate : CfCCell :=
  { input_size := 1, hidden_size := 2, sparsity_mask := none, mode := "no_gate",
    neuromod_network_dims := none, backbone := [], backbone_layers := 0,
    ff1 := { weight := [[1, 0, 2], [0, 1, 1]], bias := [1, -1] },
    w_tau := none, A := none, neuromod := none,
    ff2 := some { weight := [[1, 1, 0], [2, 0, 1]], bias := [0, 1] },
    time_a := some { weight := [[1, 2, 3], [4, 5, 6]], bias := [1, 2] },
    time_b := some { weight := [[0, 1, 1], [1, 0, 1]], bias := [2, 0] },
    tau_system := .init 2, training := true }

theorem C8_no_gate_ts_zero_witness :
    (∀ ta2 : LinearP,
      ta2.weight.length = ({ weight := [[1, 2, 3], [4, 5, 6]], bias := [1, 2] } : LinearP).weight.length →
      ta2.bias.length = ({ weight := [[1, 2, 3], [4, 5, 6]], bias := [1, 2] } : LinearP).bias.length →
      fwdOut P₀ { cellGate with time_a := some ta2 } (.single [[1]]) [[1, 1]] 0 (fun _ => 0) =
        fwdOut P₀ cellGate (.single [[1]]) [[1, 1]] 0 (fun _ => 0)) ∧
    ∃ NH : Mat,
      CfCCell.forward P₀ cellGate (.single [[1]]) [[1, 1]] 0 (fun _ => 0) =
        .ok ((NH, NH), cellGate, (bboneStep cellGate (matCat [[1]] [[1, 1]]) (fun _ => 0)).2) ∧
      NH = matAdd (matMap P₀.tanh (ff1Val cellGate (matCat [[1]] [[1, 1]]) (fun _ => 0)))
        (matHad
          (matMap P₀.sigmoid
            (linearW ([[0, 1, 1], [1, 0, 1]] : Mat) ([2, 0] : Vec)
              (bboneStep cellGate (matCat [[1]] [[1, 1]]) (fun _ => 0)).1))
          (matMap P₀.tanh
            (linearW (maskedW cellGate.sparsity_mask ([[1, 1, 0], [2, 0, 1]] : Mat))
              ([0, 1] : Vec)
              (bboneStep cellGate (matCat [[1]] [[1, 1]]) (fun _ => 0)).1))) :=
  C8_no_gate_ts_zero P₀ cellGate
    { weight := [[1, 1, 0], [2, 0, 1]], bias := [0, 1] }
    { weight := [[1, 2, 3], [4, 5, 6]], bias := [1, 2] }
    { weight := [[0, 1, 1], [1, 0, 1]], bias := [2, 0] }
    [[1]] [[1, 1]] (fun _ => 0) rfl rfl rfl rfl rfl rfl

/- ### Replacement of the neuromodulation network -/

/-- Claim C5: on a cell in mode `neuromodulated`, the
replacement operation evaluates the candidate on a probe of shape
`(1, expected input width)`; if evaluation raises or the output width
differs from `hidden_size` it fails (leaving the stored network in place —
no new cell state is produced), and on success it swaps only the stored
network reference. -/
theorem C5_change_neuromod (c : CfCCell) (ds : List ℕ) (d0 : ℕ)
    (network : Mat → Except String Mat) (g : Rng)
    (hm : c.mode = "neuromodulated") (hds : c.neuromod_network_dims = some ds)
    (hd0 : ds.head? = some d0) (hlast : ds.getLast? = some c.hidden_size) :
    ((drawMat 1 d0 g).1.length = 1 ∧ RowsAre (drawMat 1 d0 g).1 d0) ∧
    (∀ e, network (drawMat 1 d0 g).1 = .error e →
      change_neuromodulation_network c network g =
        .error "New neuromodulation network doesn't have correct input size") ∧
    (∀ out, network (drawMat 1 d0 g).1 = .ok out →
      (out.headD []).length ≠ c.hidden_size →
      change_neuromodulation_network c network g =
        .error "New neuromodulation network doesn't have correct input size") ∧
    (∀ out, network (drawMat 1 d0 g).1 = .ok out →
      (out.headD []).length = c.hidden_size →
      change_neuromodulation_network c network g =
        .ok ({ c with neuromod := some (.custom network) }, (drawMat 1 d0 g).2)) := by
  have hprobe : (drawMat 1 d0 g).1.length = 1 ∧ RowsAre (drawMat 1 d0 g).1 d0 := by
    constructor
    · rfl
    · intro i hi
      have h1 : (drawMat 1 d0 g).1.length = 1 := rfl
      have : i = 0 := by omega
      subst this
      simp [drawMat, drawVec]
  refine ⟨hprobe, ?_, ?_, ?_⟩
  · intro e he
    unfold change_neuromodulation_network
    simp only [hm, reduceIte, hds, hd0, hlast, he]
  · intro out hout hne
    unfold change_neuromodulation_network
    simp only [hm, reduceIte, hds, hd0, hlast, hout]
    rw [if_neg hne]
  · intro out hout heq
    unfold change_neuromodulation_network
    simp only [hm, reduceIte, hds, hd0, hlast, hout]
    rw [if_pos heq]

theorem C5_change_neuromod_witness :
    ((drawMat 1 2 (fun _ => 0)).1.length = 1 ∧ RowsAre (drawMat 1 2 (fun _ => 0)).1 2) ∧
    (∀ e, (fun _ : Mat => (.ok [[1, 2]] : Except String Mat)) (drawMat 1 2 (fun _ => 0)).1 = .error e →
      change_neuromodulation_network cellNeuro (fun _ => .ok [[1, 2]]) (fun _ => 0) =
        .error "New neuromodulation network doesn't have correct input size") ∧
    (∀ out, (fun _ : Mat => (.ok [[1, 2]] : Except String Mat)) (drawMat 1 2 (fun _ => 0)).1 = .ok out →
      (out.headD []).length ≠ cellNeuro.hidden_size →
      change_neuromodulation_network cellNeuro (fun _ => .ok [[1, 2]]) (fun _ => 0) =
        .error "New neuromodulation network doesn't have correct input size") ∧
    (∀ out, (fun _ : Mat => (.ok [[1, 2]] : Except String Mat)) (drawMat 1 2 (fun _ => 0)).1 = .ok out →
      (out.headD []).length = cellNeuro.hidden_size →
      change_neuromodulation_network cellNeuro (fun _ => .ok [[1, 2]]) (fun _ => 0) =
        .ok ({ cellNeuro with neuromod := some (.custom (fun _ => .ok [[1, 2]])) },
             (drawMat 1 2 (fun _ => 0)).2)) :=
  C5_change_neuromod cellNeuro [2, 2] 2 (fun _ => .ok [[1, 2]]) (fun _ => 0)
    rfl rfl rfl rfl

/- ### Constructor validation -/

theorem exists_ok_pair {E : Except String (CfCCell × Rng)} {r : CfCCell × Rng}
    (h : E = .ok r) : ∃ (c : CfCCell) (g₂ : Rng), E = .ok (c, g₂) :=
  ⟨r.1, r.2, by rw [h]⟩

/-- Claim C6: the constructor fails whenever `mode` is not one of the four
allowed values, and, for `mode = "neuromodulated"`, whenever
`neuromod_network_dims` is absent or its last element differs from
`hidden_size`; with valid arguments (allowed mode, recognised activation,
and — for `neuromodulated` — dimensions ending in `hidden_size`)
construction succeeds. -/
theorem C6_constructor_validation (P : MathPrims) (is h : ℕ) (mode bact : String)
    (bu bl : ℕ) (bd : ℚ) (mask : Option Mat) (dims : Option (List ℕ))
    (nact : ℚ → ℚ) (g : Rng) :
    (mode ∉ (["default", "pure", "no_gate", "neuromodulated"] : List String) →
      mkCfCCell P is h mode bact bu bl bd mask dims nact g = .error "Unknown mode") ∧
    (mode = "neuromodulated" →
      (∀ act : ℚ → ℚ, resolveAct P bact = .ok act → dims = none →
        mkCfCCell P is h mode bact bu bl bd mask dims nact g =
          .error "Neuromodulation network dimensions must be set") ∧
      (∀ (act : ℚ → ℚ) (ds : List ℕ) (dl : ℕ),
        resolveAct P bact = .ok act → dims = some ds → ds.getLast? = some dl →
        dl ≠ h →
        mkCfCCell P is h mode bact bu bl bd mask dims nact g =
          .error "Last layer of neuromodulation network must have the same size as the hidden state")) ∧
    (mode ∈ (["default", "pure", "no_gate", "neuromodulated"] : List String) →
      (∀ act : ℚ → ℚ, resolveAct P bact = .ok act →
        (mode = "neuromodulated" → ∃ ds, dims = some ds ∧ ds.getLast? = some h) →
        ∃ (c : CfCCell) (g₂ : Rng),
          mkCfCCell P is h mode bact bu bl bd mask dims nact g = .ok (c, g₂))) := by
  refine ⟨?_, ?_, ?_⟩
  · intro hmode
    unfold mkCfCCell
    rw [if_neg hmode]
  · intro hm
    constructor
    · intro act hact hdims
      unfold mkCfCCell
      subst hm
      subst hdims
      rw [if_pos (by decide)]
      simp [hact]
    · intro act ds dl hact hdims hlast hne
      unfold mkCfCCell
      subst hm
      subst hdims
      rw [if_pos (by decide)]
      simp [hact, hlast, hne]
  · intro hmode act hact hnm
    unfold mkCfCCell
    rw [if_pos hmode]
    simp only [hact]
    simp only [List.mem_cons, List.mem_singleton, List.not_mem_nil, or_false] at hmode
    rcases hmode with hm | hm | hm | hm <;> subst hm
    · exact ⟨_, _, rfl⟩
    · exact ⟨_, _, rfl⟩
    · exact ⟨_, _, rfl⟩
    · obtain ⟨ds, hds, hlast⟩ := hnm rfl
      subst hds
      apply exists_ok_pair
      simp only [hlast, String.reduceEq, or_true, eq_self_iff_true, if_true, reduceIte]
      rfl

theorem C6_constructor_validation_witness :
    (("banana" : String) ∉ (["default", "pure", "no_gate", "neuromodulated"] : List String) →
      mkCfCCell P₀ 1 2 "banana" "relu" 3 1 0 none none (fun x => x) (fun _ => 0) =
        .error "Unknown mode") ∧
    (("banana" : String) = "neuromodulated" →
      (∀ act : ℚ → ℚ, resolveAct P₀ "relu" = .ok act → (none : Option (List ℕ)) = none →
        mkCfCCell P₀ 1 2 "banana" "relu" 3 1 0 none none (fun x => x) (fun _ => 0) =
          .error "Neuromodulation network dimensions must be set") ∧
      (∀ (act : ℚ → ℚ) (ds : List ℕ) (dl : ℕ),
        resolveAct P₀ "relu" = .ok act → (none : Option (List ℕ)) = some ds →
        ds.getLast? = some dl → dl ≠ 2 →
        mkCfCCell P₀ 1 2 "banana" "relu" 3 1 0 none none (fun x => x) (fun _ => 0) =
          .error "Last layer of neuromodulation network must have the same size as the hidden state")) ∧
    (("banana" : String) ∈ (["default", "pure", "no_gate", "neuromodulated"] : List String) →
      (∀ act : ℚ → ℚ, resolveAct P₀ "relu" = .ok act →
        (("banana" : String) = "neuromodulated" →
          ∃ ds, (none : Option (List ℕ)) = some ds ∧ ds.getLast? = some 2) →
        ∃ (c : CfCCell) (g₂ : Rng),
          mkCfCCell P₀ 1 2 "banana" "relu" 3 1 0 none none (fun x => x) (fun _ => 0) =
            .ok (c, g₂))) :=
  C6_constructor_validation P₀ 1 2 "banana" "relu" 3 1 0 none none (fun x => x) (fun _ => 0)

theorem C7_forward_shape_witness :
    cellPure.mode ∈ (["default", "pure", "no_gate", "neuromodulated"] : List String) ∧
    WF cellPure ∧ InputOK cellPure (.single [[1]]) [[1, 1]] ∧
    ∃ (NH : Mat) (c₂ : CfCCell) (g₂ : Rng),
      CfCCell.forward P₀ cellPure (.single [[1]]) [[1, 1]] (1/2) (fun _ => 0) =
        .ok ((NH, NH), c₂, g₂) ∧
      NH.length = ([[1, 1]] : Mat).length ∧ RowsAre NH cellPure.hidden_size := by
  have hmode : cellPure.mode ∈ (["default", "pure", "no_gate", "neuromodulated"] : List String) := by
    decide
  have hwf : WF cellPure :=
    ⟨rfl, rfl, fun _ => ⟨[1, -2], [2, 3], rfl, rfl, rfl, rfl⟩,
      fun hm => absurd hm (by decide), fun hp _ => absurd rfl hp⟩
  have hin : InputOK cellPure (.single [[1]]) [[1, 1]] :=
    ⟨fun hm => absurd hm (by decide), fun _ => ⟨[[1]], rfl, rfl⟩⟩
  exact ⟨hmode, hwf, hin,
    C7_forward_shape P₀ cellPure (.single [[1]]) [[1, 1]] (1/2) (fun _ => 0) hmode hwf hin⟩

/- ### An empty neuromodulation stack is the identity -/

/-- Claim C10: constructing in mode `neuromodulated` with
`neuromod_network_dims = [hidden_size]` passes both configuration checks
and builds an empty (identity) neuromodulation network, so that in
`forward` the neuromodulation signal is the raw `neuromod_input`: the
decay is computed from `neuromod_input` itself and
`tau_system = 1 / (|w_tau| + |neuromod_input|)` is recorded. -/
theorem C10_identity_neuromod (P : MathPrims) (is h : ℕ) (bact : String)
    (bu bl : ℕ) (bd : ℚ) (mask : Option Mat) (nact : ℚ → ℚ) (g : Rng)
    (act : ℚ → ℚ) (hact : resolveAct P bact = .ok act) :
    ∃ (c : CfCCell) (g₂ : Rng),
      mkCfCCell P is h "neuromodulated" bact bu bl bd mask (some [h]) nact g =
        .ok (c, g₂) ∧
      c.neuromod = some (.seq [] nact) ∧
      (∀ x : Mat, NeuromodNet.run (.seq [] nact) x = .ok x) ∧
      ∃ wt : Vec, c.w_tau = some wt ∧
        ∀ (p nin hx : Mat) (ts : ℚ) (g₃ : Rng) (A : Vec), c.A = some A →
          ∃ NH : Mat,
            CfCCell.forward P c (.tuple p nin) hx ts g₃ =
              .ok ((NH, NH), { c with tau_system := .recorded (tauUpdate wt nin) },
                   (bboneStep c (matCat p hx) g₃).2) ∧
            NH = decayUpdate P A wt ts nin (ff1Val c (matCat p hx) g₃) := by
  have hmk : mkCfCCell P is h "neuromodulated" bact bu bl bd mask (some [h]) nact g =
      .ok (initWeights
        { input_size := is, hidden_size := h,
          sparsity_mask := mask.map (fun m => matMap (fun v => |v|) m.transpose),
          mode := "neuromodulated", neuromod_network_dims := some [h],
          backbone := (if 0 < bl then mkBackbone act (is + h) bu bd bl g else ([], g)).1,
          backbone_layers := bl,
          ff1 := (mkLinear (if bl = 0 then h + is else bu) h
            (if 0 < bl then mkBackbone act (is + h) bu bd bl g else ([], g)).2).1,
          w_tau := some (List.replicate h 0), A := some (List.replicate h 1),
          neuromod := some (.seq [] nact),
          ff2 := none, time_a := none, time_b := none,
          tau_system := .init h, training := true }
        (mkLinear (if bl = 0 then h + is else bu) h
          (if 0 < bl then mkBackbone act (is + h) bu bd bl g else ([], g)).2).2) := by
    unfold mkCfCCell
    rw [if_pos (show ("neuromodulated" : String) ∈
      (["default", "pure", "no_gate", "neuromodulated"] : List String) by decide)]
    simp only [hact, String.reduceEq, or_true, if_true, eq_self_iff_true, reduceIte,
      List.getLast?_singleton]
    rfl
  refine ⟨_, _, hmk, rfl, fun x => rfl, _, rfl, ?_⟩
  intro p nin hx ts g₃ A hA
  refine ⟨_, ?_, rfl⟩
  rw [CfCCell.forward,
    forwardCore_neuromodulated P _ _ A (.seq [] nact) p nin hx nin ts g₃ rfl rfl hA rfl rfl]
  rfl

theorem C10_identity_neuromod_witness :
    ∃ (c : CfCCell) (g₂ : Rng),
      mkCfCCell P₀ 1 2 "neuromodulated" "relu" 3 0 0 none (some [2]) (fun x => x)
          (fun _ => 0) =
        .ok (c, g₂) ∧
      c.neuromod = some (.seq [] (fun x => x)) ∧
      (∀ x : Mat, NeuromodNet.run (.seq [] (fun x => x)) x = .ok x) ∧
      ∃ wt : Vec, c.w_tau = some wt ∧
        ∀ (p nin hx : Mat) (ts : ℚ) (g₃ : Rng) (A : Vec), c.A = some A →
          ∃ NH : Mat,
            CfCCell.forward P₀ c (.tuple p nin) hx ts g₃ =
              .ok ((NH, NH), { c with tau_system := .recorded (tauUpdate wt nin) },
                   (bboneStep c (matCat p hx) g₃).2) ∧
            NH = decayUpdate P₀ A wt ts nin (ff1Val c (matCat p hx) g₃) :=
  C10_identity_neuromod P₀ 1 2 "relu" 3 0 0 none (fun x => x) (fun _ => 0) reluQ rfl

/- ### Initialization of `w_tau` and `A` -/

theorem rngDrop_const (n : ℕ) (q : ℚ) : rngDrop n (fun _ => q) = (fun _ => q) := rfl

theorem drawVec_const (n : ℕ) (q : ℚ) :
    drawVec n (fun _ => q) = (List.replicate n q, fun _ => q) := by
  unfold drawVec
  rw [List.map_const', List.length_range, rngDrop_const]

theorem drawMat_const (r cN : ℕ) (q : ℚ) :
    drawMat r cN (fun _ => q) = (List.replicate r (List.replicate cN q), fun _ => q) := by
  induction r with
  | zero => rfl
  | succ n ih => simp [drawMat, drawVec_const, ih, List.replicate_succ]

/-- Claim C3 counterexample: a `pure` cell constructed with a random
stream whose every draw is `1/2` ends up with `w_tau = [1/2, 1/2]` and
`A = [1/2, 1/2]`: the `(1, hidden_size)` parameters `w_tau` and `A` are
2-D trainable parameters, so `init_weights` applies `xavier_uniform_` to
them and overwrites the zeros/ones they were created with. -/
theorem C3_counterexample :
    ∃ (c : CfCCell) (g₂ : Rng),
      mkCfCCell P₀ 1 2 "pure" "relu" 3 0 0 none none (fun x => x) (fun _ => 1/2) =
        .ok (c, g₂) ∧
      c.w_tau ≠ some (List.replicate 2 0) ∧ c.A ≠ some (List.replicate 2 1) := by
  have hmk : mkCfCCell P₀ 1 2 "pure" "relu" 3 0 0 none none (fun x => x) (fun _ => 1/2) =
      .ok (initWeights
        { input_size := 1, hidden_size := 2,
          sparsity_mask := none, mode := "pure", neuromod_network_dims := none,
          backbone := [], backbone_layers := 0,
          ff1 := (mkLinear 3 2 (fun _ => (1 : ℚ)/2)).1,
          w_tau := some (List.replicate 2 0), A := some (List.replicate 2 1),
          neuromod := none, ff2 := none, time_a := none, time_b := none,
          tau_system := .init 2, training := true }
        (mkLinear 3 2 (fun _ => (1 : ℚ)/2)).2) := by
    unfold mkCfCCell
    rw [if_pos (show ("pure" : String) ∈
      (["default", "pure", "no_gate", "neuromodulated"] : List String) by decide)]
    simp only [String.reduceEq, or_true, true_or, or_false, if_true,
      eq_self_iff_true, reduceIte, resolveAct]
    rfl
  refine ⟨_, _, hmk, ?_, ?_⟩ <;>
    simp [initWeights, refillOptVec, refillLayers, refillW, mkLinear,
      drawVec_const, drawMat_const]

/-- Claim C3 amended: `w_tau` and `A` are created as the constants
zeros/ones, but being 2-D trainable parameters they are *included* in the
Xavier pass and overwritten with freshly drawn values, exactly like every
other 2-D trainable weight matrix (`ff1.weight` shown here); non-trainable
or non-2-D tensors such as the `tau_system` ones buffer are excluded and
keep their initial value.  (Stated for a backbone-free `pure` cell and a
constant random stream, whose draws are all `q`.) -/
theorem C3_amended (P : MathPrims) (is h : ℕ) (bact : String) (bu : ℕ) (bd : ℚ)
    (nact : ℚ → ℚ) (q : ℚ) (act : ℚ → ℚ) (hact : resolveAct P bact = .ok act)
    (hh : 0 < h) :
    ∃ (c : CfCCell) (g₂ : Rng),
      mkCfCCell P is h "pure" bact bu 0 bd none none nact (fun _ => q) = .ok (c, g₂) ∧
      c.w_tau = some (List.replicate h q) ∧
      c.A = some (List.replicate h q) ∧
      c.ff1.weight = List.replicate h (List.replicate (h + is) q) ∧
      c.tau_system = .init h := by
  obtain ⟨n, rfl⟩ : ∃ n, h = n + 1 := ⟨h - 1, by omega⟩
  have hmk : mkCfCCell P is (n + 1) "pure" bact bu 0 bd none none nact (fun _ => q) =
      .ok (initWeights
        { input_size := is, hidden_size := n + 1,
          sparsity_mask := none, mode := "pure", neuromod_network_dims := none,
          backbone := [], backbone_layers := 0,
          ff1 := (mkLinear (n + 1 + is) (n + 1) (fun _ => q)).1,
          w_tau := some (List.replicate (n + 1) 0),
          A := some (List.replicate (n + 1) 1),
          neuromod := none, ff2 := none, time_a := none, time_b := none,
          tau_system := .init (n + 1), training := true }
        (mkLinear (n + 1 + is) (n + 1) (fun _ => q)).2) := by
    unfold mkCfCCell
    rw [if_pos (show ("pure" : String) ∈
      (["default", "pure", "no_gate", "neuromodulated"] : List String) by decide)]
    simp only [hact, String.reduceEq, or_true, true_or, or_false, if_true,
      eq_self_iff_true, reduceIte]
    rfl
  refine ⟨_, _, hmk, ?_, ?_, ?_, ?_⟩ <;>
    simp [initWeights, refillOptVec, refillLayers, refillW, mkLinear,
      drawVec_const, drawMat_const, List.replicate_succ]

theorem C3_amended_witness :
    ∃ (c : CfCCell) (g₂ : Rng),
      mkCfCCell P₀ 1 2 "pure" "relu" 3 0 0 none none (fun x => x) (fun _ => 5) =
        .ok (c, g₂) ∧
      c.w_tau = some (List.replicate 2 5) ∧
      c.A = some (List.replicate 2 5) ∧
      c.ff1.weight = List.replicate 2 (List.replicate (2 + 1) 5) ∧
      c.tau_system = .init 2 :=
  C3_amended P₀ 1 2 "relu" 3 0 (fun x => x) 5 reluQ rfl (by decide)

/- ### Determinism of `forward` and dropout -/

theorem mkBackboneTail_noDropout (a : ℚ → ℚ) (u : ℕ) (p : ℚ) (k : ℕ) (g : Rng)
    (hp : ¬ 0 < p) : noDropout (mkBackboneTail a u p k g).1 := by
  induction k generalizing g with
  | zero =>
    intro l hl
    simp [mkBackboneTail] at hl
  | succ n ih =>
    intro l hl
    simp only [mkBackboneTail, if_neg hp, List.append_nil, List.cons_append,
      List.nil_append, List.mem_cons] at hl
    rcases hl with rfl | rfl | hl
    · rfl
    · rfl
    · exact ih _ l hl

theorem mkBackbone_noDropout (a : ℚ → ℚ) (inF u : ℕ) (p : ℚ) (bl : ℕ) (g : Rng)
    (hp : p ≤ 0 ∨ bl ≤ 1) : noDropout (mkBackbone a inF u p bl g).1 := by
  intro l hl
  simp only [mkBackbone, List.mem_cons] at hl
  rcases hl with rfl | rfl | hl
  · rfl
  · rfl
  · rcases hp with hp | hp
    · exact mkBackboneTail_noDropout a u p (bl - 1) _ (by exact not_lt.mpr hp) _ hl
    · have hbl : bl - 1 = 0 := by omega
      rw [hbl] at hl
      simp [mkBackboneTail] at hl

theorem refillLayers_noDropout (ls : List Layer) (g : Rng) (h : noDropout ls) :
    noDropout (refillLayers ls g).1 := by
  induction ls generalizing g with
  | nil =>
    intro l hl
    simp [refillLayers] at hl
  | cons l0 ls ih =>
    have h0 : l0.isDrop = false := h l0 (List.mem_cons_self l0 ls)
    have hls : noDropout ls := fun m hm => h m (List.mem_cons_of_mem l0 hm)
    intro l hl
    cases l0 with
    | linear lw =>
      simp only [refillLayers, List.mem_cons] at hl
      rcases hl with rfl | hl
      · rfl
      · exact ih _ hls l hl
    | act f =>
      simp only [refillLayers, List.mem_cons] at hl
      rcases hl with rfl | hl
      · rfl
      · exact ih _ hls l hl
    | dropout p => simp [Layer.isDrop] at h0

theorem initWeights_backbone (c : CfCCell) (g : Rng) :
    ((initWeights c g).1).backbone =
      (refillLayers c.backbone (refillOptVec c.A (refillOptVec c.w_tau g).2).2).1 := by
  cases hn : c.neuromod with
  | none =>
    cases hf : c.ff2 <;> cases ha : c.time_a <;> cases hb : c.time_b <;>
      simp [initWeights, hn, hf, ha, hb]
  | some nm =>
    cases nm with
    | seq ls a => simp [initWeights, hn]
    | custom f =>
      cases hf : c.ff2 <;> cases ha : c.time_a <;> cases hb : c.time_b <;>
        simp [initWeights, hn, hf, ha, hb]

theorem bb_noDropout (a : ℚ → ℚ) (inF u : ℕ) (p : ℚ) (bl : ℕ) (g : Rng)
    (hnd : p ≤ 0 ∨ bl ≤ 1) :
    noDropout (if 0 < bl then mkBackbone a inF u p bl g else ([], g)).1 := by
  by_cases hb : 0 < bl
  · rw [if_pos hb]
    exact mkBackbone_noDropout a inF u p bl g hnd
  · rw [if_neg hb]
    intro l hl
    simp at hl

/-- A successfully constructed cell whose arguments disable dropout
(`backbone_dropout ≤ 0` or `backbone_layers ≤ 1`) has a dropout-free
backbone. -/
theorem mk_noDropout (P : MathPrims) (is h : ℕ) (mode bact : String) (bu bl : ℕ)
    (bd : ℚ) (mask : Option Mat) (dims : Option (List ℕ)) (nact : ℚ → ℚ) (g₀ : Rng)
    (c : CfCCell) (g₁ : Rng)
    (hmk : mkCfCCell P is h mode bact bu bl bd mask dims nact g₀ = .ok (c, g₁))
    (hnd : bd ≤ 0 ∨ bl ≤ 1) : noDropout c.backbone := by
  unfold mkCfCCell at hmk
  repeat' split at hmk
  all_goals first
    | exact Except.noConfusion hmk
    | (simp only [Except.ok.injEq] at hmk
       have hc : c = _ := congrArg Prod.fst hmk.symm
       rw [hc, initWeights_backbone]
       first
         | exact refillLayers_noDropout _ _ (mkBackbone_noDropout _ _ _ _ _ _ hnd)
         | exact refillLayers_noDropout _ _ (fun l hl => by simp at hl))

/-- Claim C4 amended: with parameters held fixed, two consecutive `forward`
calls with identical `(input, hidden, ts)` produce bit-identical outputs
provided the constructed backbone contains no dropout layer
(`backbone_dropout ≤ 0` or `backbone_layers ≤ 1`).  With an active dropout
layer the module is in training mode and each call consumes fresh random
draws, so consecutive outputs may differ. -/
theorem C4_amended (P : MathPrims) (is h : ℕ) (mode bact : String) (bu bl : ℕ)
    (bd : ℚ) (mask : Option Mat) (dims : Option (List ℕ)) (nact : ℚ → ℚ) (g₀ : Rng)
    (c : CfCCell) (g₁ : Rng)
    (hmk : mkCfCCell P is h mode bact bu bl bd mask dims nact g₀ = .ok (c, g₁))
    (hnd : bd ≤ 0 ∨ bl ≤ 1)
    (input : CfCInput) (hx : Mat) (ts : ℚ) (gf : Rng)
    (o₁ : Mat × Mat) (c₂ : CfCCell) (gf₁ : Rng)
    (h1 : CfCCell.forward P c input hx ts gf = .ok (o₁, c₂, gf₁))
    (o₂ : Mat × Mat) (c₃ : CfCCell) (gf₂ : Rng)
    (h2 : CfCCell.forward P c₂ input hx ts gf₁ = .ok (o₂, c₃, gf₂)) :
    o₁ = o₂ := by
  have hndb : noDropout c.backbone :=
    mk_noDropout P is h mode bact bu bl bd mask dims nact g₀ c g₁ hmk hnd
  obtain ⟨tw1, hcore1, hsym1, hc2⟩ := forward_ok_inv P c input hx ts gf o₁ c₂ gf₁ h1
  obtain ⟨tw2, hcore2, hsym2, hc3⟩ := forward_ok_inv P c₂ input hx ts gf₁ o₂ c₃ gf₂ h2
  rw [hc2, forwardCore_tau_irrelevant] at hcore2
  have heq := forwardCore_noDropout_rng P c input hx ts gf gf₁ hndb
  rw [hcore1, hcore2] at heq
  simp only [Except.map, Except.ok.injEq, Prod.mk.injEq] at heq
  have ho : o₁.1 = o₂.1 := heq.1
  have ho2 : o₁.2 = o₂.2 := by rw [hsym1, hsym2, ho]
  exact Prod.ext ho ho2

/-- A constant random stream (every draw is `1/2`). -/
def gHalf : Rng := fun _ => 1/2

/-- A stream whose first draw (`0`) falls below a dropout rate of `1/2`
and whose later draws (`3/4`) do not. -/
def gfC4 : Rng := fun n => if n = 0 then 0 else 3/4

/-- The cell built by
`mkCfCCell P₀ 1 1 "default" "relu" 1 2 (1/2) none none _ gHalf`:
two backbone layers with a dropout layer after the second block. -/
def cellDrop : CfCCell :=
  { input_size := 1, hidden_size := 1, sparsity_mask := none, mode := "default",
    neuromod_network_dims := none,
    backbone := [Layer.linear { weight := [[1/2, 1/2]], bias := [1/2] },
      Layer.act reluQ, Layer.linear { weight := [[1/2]], bias := [1/2] },
      Layer.act reluQ, Layer.dropout (1/2)],
    backbone_layers := 2, ff1 := { weight := [[1/2]], bias := [1/2] },
    w_tau := none, A := none, neuromod := none,
    ff2 := some { weight := [[1/2]], bias := [1/2] },
    time_a := some { weight := [[1/2]], bias := [1/2] },
    time_b := some { weight := [[1/2]], bias := [1/2] },
    tau_system := .init 1, training := true }

/-- Claim C4 counterexample: a configuration with `backbone_dropout = 1/2`
and two backbone layers yields a backbone with an active Dropout layer
(training mode is the default).  Each call consumes fresh dropout draws:
with the stream `gfC4` the first call drops the backbone activation
(output `[[1/2]]`) and the second keeps it (output `[[7/4]]`), so two
consecutive `forward` calls with identical `(input, hidden, ts)` are not
bit-identical. -/
theorem C4_counterexample :
    ∃ (c : CfCCell) (g₁ : Rng),
      mkCfCCell P₀ 1 1 "default" "relu" 1 2 (1/2) none none (fun x => x) gHalf =
        .ok (c, g₁) ∧
      ∃ (o₁ o₂ : Mat) (c₂ c₃ : CfCCell) (gf₁ gf₂ : Rng),
        CfCCell.forward P₀ c (.single [[1]]) [[1]] 0 gfC4 = .ok ((o₁, o₁), c₂, gf₁) ∧
        CfCCell.forward P₀ c₂ (.single [[1]]) [[1]] 0 gf₁ = .ok ((o₂, o₂), c₃, gf₂) ∧
        o₁ ≠ o₂ := by
  have hmk : mkCfCCell P₀ 1 1 "default" "relu" 1 2 (1/2) none none (fun x => x) gHalf =
      .ok (cellDrop, gHalf) := by
    unfold mkCfCCell gHalf
    rw [if_pos (show ("default" : String) ∈
      (["default", "pure", "no_gate", "neuromodulated"] : List String) by decide)]
    simp only [resolveAct, String.reduceEq, reduceIte, or_self, if_false]
    norm_num [mkBackbone, mkBackboneTail, mkLinear, drawMat_const, drawVec_const,
      initWeights, refillOptVec, refillLayers, refillW, cellDrop, List.replicate_succ,
      rngDrop_const]
  have hf1 : CfCCell.forward P₀ cellDrop (.single [[1]]) [[1]] 0 gfC4 =
      .ok (([[1/2]], [[1/2]]), cellDrop, rngDrop 1 gfC4) := by
    unfold CfCCell.forward forwardCore
    simp only [cellDrop, String.reduceEq, reduceIte, Except.map]
    norm_num [bboneStep, runBackbone, runLayer, dropoutMat, dropoutRow, linearW, dotQ,
      matCat, matMap, matAdd, matHad, matScale, matOneMinus, maskedW, ff1W, reluQ, P₀,
      rngDrop, gfC4]
  have hf2 : CfCCell.forward P₀ cellDrop (.single [[1]]) [[1]] 0 (rngDrop 1 gfC4) =
      .ok (([[7/4]], [[7/4]]), cellDrop, rngDrop 1 (rngDrop 1 gfC4)) := by
    unfold CfCCell.forward forwardCore
    simp only [cellDrop, String.reduceEq, reduceIte, Except.map]
    norm_num [bboneStep, runBackbone, runLayer, dropoutMat, dropoutRow, linearW, dotQ,
      matCat, matMap, matAdd, matHad, matScale, matOneMinus, maskedW, ff1W, reluQ, P₀,
      rngDrop, gfC4]
  refine ⟨cellDrop, gHalf, hmk, [[1/2]], [[7/4]], cellDrop, cellDrop,
    rngDrop 1 gfC4, rngDrop 1 (rngDrop 1 gfC4), hf1, hf2, by norm_num⟩

/-- The cell built by
`mkCfCCell P₀ 1 1 "default" "relu" 1 0 0 none none _ gHalf`
(no backbone, hence no dropout). -/
def cellND : CfCCell :=
  { input_size := 1, hidden_size := 1, sparsity_mask := none, mode := "default",
    neuromod_network_dims := none, backbone := [], backbone_layers := 0,
    ff1 := { weight := [[1/2, 1/2]], bias := [1/2] },
    w_tau := none, A := none, neuromod := none,
    ff2 := some { weight := [[1/2, 1/2]], bias := [1/2] },
    time_a := some { weight := [[1/2, 1/2]], bias := [1/2] },
    time_b := some { weight := [[1/2, 1/2]], bias := [1/2] },
    tau_system := .init 1, training := true }

theorem C4_amended_witness :
    (([[3/2]], [[3/2]]) : Mat × Mat) = (([[3/2]], [[3/2]]) : Mat × Mat) := by
  have hmk : mkCfCCell P₀ 1 1 "default" "relu" 1 0 0 none none (fun x => x) gHalf =
      .ok (cellND, gHalf) := by
    unfold mkCfCCell gHalf
    rw [if_pos (show ("default" : String) ∈
      (["default", "pure", "no_gate", "neuromodulated"] : List String) by decide)]
    simp only [resolveAct, String.reduceEq, reduceIte, or_self, if_false]
    norm_num [mkBackbone, mkBackboneTail, mkLinear, drawMat_const, drawVec_const,
      initWeights, refillOptVec, refillLayers, refillW, cellND, List.replicate_succ,
      rngDrop_const]
  have hf : CfCCell.forward P₀ cellND (.single [[1]]) [[1]] 0 gHalf =
      .ok (([[3/2]], [[3/2]]), cellND, gHalf) := by
    unfold CfCCell.forward forwardCore
    simp only [cellND, String.reduceEq, reduceIte, Except.map]
    norm_num [bboneStep, runBackbone, runLayer, dropoutMat, dropoutRow, linearW, dotQ,
      matCat, matMap, matAdd, matHad, matScale, matOneMinus, maskedW, ff1W, reluQ, P₀,
      rngDrop, gHalf]
  exact C4_amended P₀ 1 1 "default" "relu" 1 0 0 none none (fun x => x) gHalf cellND
    gHalf hmk (Or.inl le_rfl) (.single [[1]]) [[1]] 0 gHalf ([[3/2]], [[3/2]]) cellND
    gHalf hf ([[3/2]], [[3/2]]) cellND gHalf hf
